import Mathlib

set_option maxHeartbeats 1000000

/-!
Verification of the React-outline extractor (src/parser.ts).

The development shallowly embeds the parts of the Babel AST that the
extractor consults, together with the extractor itself: classification of
top-level declarations (function components, arrow components, class
components, custom hooks), location of the render-output body, and the
depth-limited JSX outline builder with fragment collapsing and
conditional / ternary / list-mapping unwrapping.

Modelling notes, each matching a property of the JavaScript source:
* Babel node objects are embedded as the inductive `Node`.  Only the node
  kinds and fields the extractor reads are represented.  JSX attributes,
  function parameters and declarator patterns are elided: the extractor
  never emits symbols from them (`getJSXChildren` reads only `children`,
  and classification reads only names and bodies).
* `path.traverse` in Babel visits the strict descendants of a node, never
  the node itself; `topLevelJSXBelow` reproduces this for the render body.
* `findChildPath` / `findExpressionPath` locate a node by object identity
  inside the traversed parent and always succeed for the direct children
  and sub-expressions they are applied to, so the embedding passes the
  child node through directly.
* `vscode.DocumentSymbol` is embedded as `OutlineNode`; the mutation
  `parentSymbol.children.push` is rendered by returning the list of
  symbols a call appends, in call order.
* Line numbers are integers: Babel locations are 1-based, the editor is
  0-based, and `astRangeToVsCodeRange` is the single conversion point.
-/

/-- Editor position: 0-based line, column. -/
structure VsPosition where
  line : Int
  column : Int
deriving DecidableEq

/-- Editor range, a start / end pair of positions. -/
structure VsRange where
  start : VsPosition
  stop : VsPosition
deriving DecidableEq

/-- Babel source position: 1-based line, 0-based column. -/
structure AstPosition where
  line : Int
  column : Int
deriving DecidableEq

/-- Babel `loc` record carried on AST nodes. -/
structure AstLoc where
  start : AstPosition
  stop : AstPosition
deriving DecidableEq

/-- Lines 533-545 of parser.ts: convert a Babel location to an editor
range.  A missing location degrades to the zero-width range at document
start (`document.positionAt(0)`); otherwise lines are decremented by one
and columns pass through. -/
def astRangeToVsCodeRange : Option AstLoc → VsRange
  | none =>
      { start := { line := 0, column := 0 }, stop := { line := 0, column := 0 } }
  | some loc =>
      { start := { line := loc.start.line - 1, column := loc.start.column },
        stop := { line := loc.stop.line - 1, column := loc.stop.column } }

/-- The `vscode.SymbolKind` values the extractor uses. -/
inductive SymbolKind where
  | classKind
  | functionKind
  | namespaceKind
  | fieldKind
deriving DecidableEq

/-- JSX tag expressions: `JSXIdentifier`, `JSXMemberExpression` (whose
property in Babel is always a `JSXIdentifier`, embedded as a string) and
`JSXNamespacedName`. -/
inductive JSXTagExpr where
  | jsxIdentifier (name : String)
  | jsxMember (objectPart : JSXTagExpr) (propertyPart : String)
  | jsxNamespacedName (nsPart : String) (namePart : String)
deriving DecidableEq

/-- Binary logical operators of a Babel `LogicalExpression`. -/
inductive LogicalOperator where
  | andAnd
  | orOr
  | questionQuestion
deriving DecidableEq

/-- The Babel AST node kinds consulted by parser.ts.  `loc` fields are
kept exactly where the extractor reads them (`node.loc` of JSX nodes and
of the three declaration forms).  `otherNode` stands for every node kind
the extractor treats as opaque (literals, object expressions, ...). -/
inductive Node where
  | jsxElement (tag : JSXTagExpr) (loc : Option AstLoc) (children : List Node)
  | jsxFragment (loc : Option AstLoc) (children : List Node)
  | jsxText (value : String)
  | jsxExpressionContainer (expression : Node)
  | jsxEmptyExpression
  | jsxSpreadChild (expression : Node)
  | logicalExpression (op : LogicalOperator) (left : Node) (right : Node)
  | conditionalExpression (test : Node) (consequent : Node) (alternate : Node)
  | callExpression (callee : Node) (args : List Node)
  | arrowFunctionExpression (body : Node)
  | functionExpression (body : Node)
  | blockStatement (body : List Node)
  | returnStatement (argument : Option Node)
  | expressionStatement (expression : Node)
  | identifierExpr (name : String)
  | memberExpression (objectPart : Node) (propertyPart : String)
  | functionDeclaration (id : Option String) (loc : Option AstLoc) (body : Node)
  | variableDeclaration (declarations : List Node)
  | variableDeclarator (id : Option String) (loc : Option AstLoc) (init : Option Node)
  | classDeclaration (id : Option String) (loc : Option AstLoc) (superClass : Option Node)
      (members : List Node)
  | classMethod (keyId : Option String) (body : Node)
  | otherNode

/-- The regular expression test `/^[A-Z]/.test(s)`. -/
def startsWithUppercase (s : String) : Bool :=
  match s.data with
  | [] => false
  | c :: _ => 'A' ≤ c && c ≤ 'Z'

/-- The regular expression test `/^use[A-Z]/.test(s)`. -/
def matchesHookPattern (s : String) : Bool :=
  match s.data with
  | 'u' :: 's' :: 'e' :: c :: _ => 'A' ≤ c && c ≤ 'Z'
  | _ => false

mutual
/-- Does this node, or any of its descendants, contain a `JSXElement` or
`JSXFragment`?  This is the effect of the visitor in `hasJSXReturn`
(lines 115-132 of parser.ts) applied at the node: the visitor fires on
any JSX node among the descendants. -/
def containsJSX : Node → Bool
  | .jsxElement _ _ _ => true
  | .jsxFragment _ _ => true
  | .jsxText _ => false
  | .jsxExpressionContainer e => containsJSX e
  | .jsxEmptyExpression => false
  | .jsxSpreadChild e => containsJSX e
  | .logicalExpression _ l r => containsJSX l || containsJSX r
  | .conditionalExpression t c a => containsJSX t || containsJSX c || containsJSX a
  | .callExpression f args => containsJSX f || containsJSXList args
  | .arrowFunctionExpression b => containsJSX b
  | .functionExpression b => containsJSX b
  | .blockStatement ss => containsJSXList ss
  | .returnStatement (some a) => containsJSX a
  | .returnStatement none => false
  | .expressionStatement e => containsJSX e
  | .identifierExpr _ => false
  | .memberExpression o _ => containsJSX o
  | .functionDeclaration _ _ b => containsJSX b
  | .variableDeclaration ds => containsJSXList ds
  | .variableDeclarator _ _ (some i) => containsJSX i
  | .variableDeclarator _ _ none => false
  | .classDeclaration _ _ (some sc) ms => containsJSX sc || containsJSXList ms
  | .classDeclaration _ _ none ms => containsJSXList ms
  | .classMethod _ b => containsJSX b
  | .otherNode => false

/-- `containsJSX` over a list of sibling nodes. -/
def containsJSXList : List Node → Bool
  | [] => false
  | n :: ns => containsJSX n || containsJSXList ns
end

/-- Lines 115-132 of parser.ts: `hasJSXReturn(functionPath)` traverses the
strict descendants of the function node.  It is only ever called on a
`FunctionDeclaration` path or on an arrow/function-expression initializer
path, none of which is itself JSX, so the traversal amounts to scanning
the body (parameters, elided here, carry no emitted JSX). -/
def hasJSXReturn : Node → Bool
  | .functionDeclaration _ _ body => containsJSX body
  | .arrowFunctionExpression body => containsJSX body
  | .functionExpression body => containsJSX body
  | _ => false

/-- Lines 455-474 of parser.ts: walk a JSX member chain, prepending each
property name, stopping at the innermost identifier (a namespaced name in
object position would end the walk without adding a part, mirroring the
`else break`). -/
def formatMemberExpressionParts : JSXTagExpr → List String → List String
  | .jsxMember obj prop, acc => formatMemberExpressionParts obj (prop :: acc)
  | .jsxIdentifier n, acc => n :: acc
  | .jsxNamespacedName _ _, acc => acc

/-- The dot-joined member chain, e.g. `React.Fragment`. -/
def formatMemberExpression (expr : JSXTagExpr) : String :=
  String.intercalate "." (formatMemberExpressionParts expr [])

/-- Lines 435-452 of parser.ts: resolve the display tag of a JSX node. -/
def getJSXTagName : Node → String
  | .jsxFragment _ _ => "<Fragment>"
  | .jsxElement tag _ _ =>
      match tag with
      | .jsxIdentifier n => n
      | .jsxMember o p => formatMemberExpression (.jsxMember o p)
      | .jsxNamespacedName nsPart namePart => nsPart ++ ":" ++ namePart
  | _ => "Unknown"

/-- Lines 477-489 of parser.ts: symbol kind from the resolved tag. -/
def getJSXSymbolKind (tagName : String) : SymbolKind :=
  if tagName = "<Fragment>" then .namespaceKind
  else if startsWithUppercase tagName then .classKind
  else .fieldKind

/-- The produced outline entry (`vscode.DocumentSymbol`): display name,
detail string, kind, range, ordered children. -/
inductive OutlineNode where
  | mk (name : String) (detail : String) (kind : SymbolKind) (range : VsRange)
      (children : List OutlineNode)

def OutlineNode.name : OutlineNode → String
  | .mk n _ _ _ _ => n

def OutlineNode.detail : OutlineNode → String
  | .mk _ d _ _ _ => d

def OutlineNode.kind : OutlineNode → SymbolKind
  | .mk _ _ k _ _ => k

def OutlineNode.range : OutlineNode → VsRange
  | .mk _ _ _ r _ => r

def OutlineNode.children : OutlineNode → List OutlineNode
  | .mk _ _ _ _ cs => cs

/-- Lines 427-432 of parser.ts: the markup children of a JSX node, empty
for everything else. -/
def getJSXChildren : Node → List Node
  | .jsxElement _ _ cs => cs
  | .jsxFragment _ cs => cs
  | _ => []

/-- The `loc` field the extractor reads off a node (`node.loc`). -/
def nodeLoc : Node → Option AstLoc
  | .jsxElement _ loc _ => loc
  | .jsxFragment loc _ => loc
  | .functionDeclaration _ loc _ => loc
  | .variableDeclarator _ loc _ => loc
  | .classDeclaration _ loc _ _ => loc
  | _ => none

/-- The check `type === 'JSXElement' || type === 'JSXFragment'`. -/
def isJSXElementOrFragment : Node → Bool
  | .jsxElement _ _ _ => true
  | .jsxFragment _ _ => true
  | _ => false

mutual
/-- Lines 238-281 of parser.ts, `addJSXSymbol`: below the depth cutoff,
append one outline node for the JSX node (tag, empty detail, kind, range)
whose children come from processing the node's markup children.  A
non-JSX argument (never passed by the callers) would yield tag `Unknown`
and no children, exactly as `getJSXTagName` / `getJSXChildren` degrade. -/
def addJSXSymbol : Node → Nat → Nat → Bool → List OutlineNode
  | .jsxElement tag loc cs => fun currentDepth maxDepth showFragments =>
      if currentDepth ≥ maxDepth then []
      else
        let tagName := getJSXTagName (.jsxElement tag loc cs)
        [OutlineNode.mk tagName "" (getJSXSymbolKind tagName) (astRangeToVsCodeRange loc)
          (jsxChildLoop cs currentDepth maxDepth showFragments)]
  | .jsxFragment loc cs => fun currentDepth maxDepth showFragments =>
      if currentDepth ≥ maxDepth then []
      else
        let tagName := getJSXTagName (.jsxFragment loc cs)
        [OutlineNode.mk tagName "" (getJSXSymbolKind tagName) (astRangeToVsCodeRange loc)
          (jsxChildLoop cs currentDepth maxDepth showFragments)]
  | n => fun currentDepth maxDepth _ =>
      if currentDepth ≥ maxDepth then []
      else
        let tagName := getJSXTagName n
        [OutlineNode.mk tagName "" (getJSXSymbolKind tagName)
          (astRangeToVsCodeRange (nodeLoc n)) []]

/-- Lines 264-280 of parser.ts: the loop over `getJSXChildren(node)`
inside `addJSXSymbol`.  Each child is handled by `jsxChildSymbols` at
`currentDepth + 1`. -/
def jsxChildLoop : List Node → Nat → Nat → Bool → List OutlineNode
  | [] => fun _ _ _ => []
  | child :: rest => fun currentDepth maxDepth showFragments =>
      jsxChildSymbols child (currentDepth + 1) maxDepth showFragments ++
        jsxChildLoop rest currentDepth maxDepth showFragments

/-- The per-child dispatch of lines 267-279 of parser.ts, receiving the
child's own depth: a markup child recurses exactly as `addJSXSymbol`
(that call is inlined arm by arm; `jsxChildSymbols_eq` restores the
source's shape), a hidden fragment child collapses, an expression
container is dispatched to expression unwrapping, anything else is
skipped. -/
def jsxChildSymbols : Node → Nat → Nat → Bool → List OutlineNode
  | .jsxElement tag loc cs => fun currentDepth maxDepth showFragments =>
      if currentDepth ≥ maxDepth then []
      else
        let tagName := getJSXTagName (.jsxElement tag loc cs)
        [OutlineNode.mk tagName "" (getJSXSymbolKind tagName) (astRangeToVsCodeRange loc)
          (jsxChildLoop cs currentDepth maxDepth showFragments)]
  | .jsxFragment loc cs => fun currentDepth maxDepth showFragments =>
      if !showFragments then fragmentChildLoop cs currentDepth maxDepth showFragments
      else if currentDepth ≥ maxDepth then []
      else
        let tagName := getJSXTagName (.jsxFragment loc cs)
        [OutlineNode.mk tagName "" (getJSXSymbolKind tagName) (astRangeToVsCodeRange loc)
          (jsxChildLoop cs currentDepth maxDepth showFragments)]
  | .jsxExpressionContainer e => fun currentDepth maxDepth showFragments =>
      if currentDepth ≥ maxDepth then []
      else jsxExpressionSymbols e currentDepth maxDepth showFragments
  | _ => fun _ _ _ => []

/-- Lines 284-310 of parser.ts, `processFragmentChildren`: emit the
children of a hidden fragment directly under the fragment's parent, at
the fragment's own depth (`getJSXChildren` is inlined in the match). -/
def processFragmentChildren : Node → Nat → Nat → Bool → List OutlineNode
  | .jsxElement _ _ cs => fun currentDepth maxDepth showFragments =>
      fragmentChildLoop cs currentDepth maxDepth showFragments
  | .jsxFragment _ cs => fun currentDepth maxDepth showFragments =>
      fragmentChildLoop cs currentDepth maxDepth showFragments
  | _ => fun _ _ _ => []

/-- Lines 295-309 of parser.ts: the loop inside `processFragmentChildren`;
each child is handled by `fragmentChildSymbols` at the same depth. -/
def fragmentChildLoop : List Node → Nat → Nat → Bool → List OutlineNode
  | [] => fun _ _ _ => []
  | child :: rest => fun currentDepth maxDepth showFragments =>
      fragmentChildSymbols child currentDepth maxDepth showFragments ++
        fragmentChildLoop rest currentDepth maxDepth showFragments

/-- The per-child dispatch of lines 296-308 of parser.ts: elements
recurse as `addJSXSymbol` (inlined; `fragmentChildSymbols_eq` restores
the shape), nested fragments collapse again at the same depth,
expression containers dispatch at the same depth. -/
def fragmentChildSymbols : Node → Nat → Nat → Bool → List OutlineNode
  | .jsxElement tag loc cs => fun currentDepth maxDepth showFragments =>
      if currentDepth ≥ maxDepth then []
      else
        let tagName := getJSXTagName (.jsxElement tag loc cs)
        [OutlineNode.mk tagName "" (getJSXSymbolKind tagName) (astRangeToVsCodeRange loc)
          (jsxChildLoop cs currentDepth maxDepth showFragments)]
  | .jsxFragment _ cs => fun currentDepth maxDepth showFragments =>
      fragmentChildLoop cs currentDepth maxDepth showFragments
  | .jsxExpressionContainer e => fun currentDepth maxDepth showFragments =>
      if currentDepth ≥ maxDepth then []
      else jsxExpressionSymbols e currentDepth maxDepth showFragments
  | _ => fun _ _ _ => []

/-- Lines 327-359 of parser.ts: the body of `processJSXExpression` after
the depth guard and the extraction `const expr = expression.expression`.
Logical expressions emit their right operand when it is markup (operator
and left operand ignored), ternaries check both branches, call
expressions scan their callback arguments; every emission happens at the
same depth the container was dispatched with. -/
def jsxExpressionSymbols : Node → Nat → Nat → Bool → List OutlineNode
  | .jsxEmptyExpression => fun _ _ _ => []
  | .logicalExpression _ _ r => fun currentDepth maxDepth showFragments =>
      if isJSXElementOrFragment r then addJSXSymbol r currentDepth maxDepth showFragments
      else []
  | .conditionalExpression _ c a => fun currentDepth maxDepth showFragments =>
      (if isJSXElementOrFragment c then addJSXSymbol c currentDepth maxDepth showFragments
       else []) ++
      (if isJSXElementOrFragment a then addJSXSymbol a currentDepth maxDepth showFragments
       else [])
  | .callExpression _ args => fun currentDepth maxDepth showFragments =>
      traverseCallExpressionForJSX args currentDepth maxDepth showFragments
  | _ => fun _ _ _ => []

/-- Lines 363-399 of parser.ts, `traverseCallExpressionForJSX`: the loop
over `callExpr.arguments`; each argument is handled by
`callbackArgJSX`. -/
def traverseCallExpressionForJSX : List Node → Nat → Nat → Bool → List OutlineNode
  | [] => fun _ _ _ => []
  | arg :: rest => fun currentDepth maxDepth showFragments =>
      callbackArgJSX arg currentDepth maxDepth showFragments ++
        traverseCallExpressionForJSX rest currentDepth maxDepth showFragments

/-- Line 374 of parser.ts: only arrow / function expression arguments are
inspected; their body goes to `callbackBodyJSX`. -/
def callbackArgJSX : Node → Nat → Nat → Bool → List OutlineNode
  | .arrowFunctionExpression body => fun currentDepth maxDepth showFragments =>
      callbackBodyJSX body currentDepth maxDepth showFragments
  | .functionExpression body => fun currentDepth maxDepth showFragments =>
      callbackBodyJSX body currentDepth maxDepth showFragments
  | _ => fun _ _ _ => []

/-- Lines 375-396 of parser.ts: a direct markup body is emitted as by
`addJSXSymbol` (inlined; `callbackBodyJSX_eq` restores the shape), a
block body is scanned for immediate `return` statements. -/
def callbackBodyJSX : Node → Nat → Nat → Bool → List OutlineNode
  | .jsxElement tag loc cs => fun currentDepth maxDepth showFragments =>
      if currentDepth ≥ maxDepth then []
      else
        let tagName := getJSXTagName (.jsxElement tag loc cs)
        [OutlineNode.mk tagName "" (getJSXSymbolKind tagName) (astRangeToVsCodeRange loc)
          (jsxChildLoop cs currentDepth maxDepth showFragments)]
  | .jsxFragment loc cs => fun currentDepth maxDepth showFragments =>
      if currentDepth ≥ maxDepth then []
      else
        let tagName := getJSXTagName (.jsxFragment loc cs)
        [OutlineNode.mk tagName "" (getJSXSymbolKind tagName) (astRangeToVsCodeRange loc)
          (jsxChildLoop cs currentDepth maxDepth showFragments)]
  | .blockStatement stmts => fun currentDepth maxDepth showFragments =>
      callbackReturnLoop stmts currentDepth maxDepth showFragments
  | _ => fun _ _ _ => []

/-- Lines 385-395 of parser.ts: the loop over a callback block's
immediate statements. -/
def callbackReturnLoop : List Node → Nat → Nat → Bool → List OutlineNode
  | [] => fun _ _ _ => []
  | st :: rest => fun currentDepth maxDepth showFragments =>
      callbackStmtJSX st currentDepth maxDepth showFragments ++
        callbackReturnLoop rest currentDepth maxDepth showFragments

/-- Lines 386-394 of parser.ts: a `return` statement whose argument is
markup is emitted, every other statement is skipped. -/
def callbackStmtJSX : Node → Nat → Nat → Bool → List OutlineNode
  | .returnStatement (some a) => fun currentDepth maxDepth showFragments =>
      if isJSXElementOrFragment a then addJSXSymbol a currentDepth maxDepth showFragments
      else []
  | _ => fun _ _ _ => []
end

/-- Lines 313-360 of parser.ts, `processJSXExpression`: below the depth
cutoff, unwrap an embedded expression container; the extracted
expression is handled by `jsxExpressionSymbols`. -/
def processJSXExpression (expression : Node) (currentDepth maxDepth : Nat)
    (showFragments : Bool) : List OutlineNode :=
  if currentDepth ≥ maxDepth then []
  else
    match expression with
    | .jsxExpressionContainer expr =>
        jsxExpressionSymbols expr currentDepth maxDepth showFragments
    | _ => []

mutual
/-- The JSX nodes among a node and its descendants that have no JSX node
strictly above them: at a JSX node the walk stops (deeper JSX has a JSX
ancestor and fails `isTopLevelJSX`, lines 226-235 of parser.ts); at any
other node the walk continues into the traversal children, in Babel's
visiting order. -/
def topLevelJSX : Node → List Node
  | .jsxElement tag loc cs => [.jsxElement tag loc cs]
  | .jsxFragment loc cs => [.jsxFragment loc cs]
  | .jsxText _ => []
  | .jsxExpressionContainer e => topLevelJSX e
  | .jsxEmptyExpression => []
  | .jsxSpreadChild e => topLevelJSX e
  | .logicalExpression _ l r => topLevelJSX l ++ topLevelJSX r
  | .conditionalExpression t c a => topLevelJSX t ++ topLevelJSX c ++ topLevelJSX a
  | .callExpression f args => topLevelJSX f ++ topLevelJSXList args
  | .arrowFunctionExpression b => topLevelJSX b
  | .functionExpression b => topLevelJSX b
  | .blockStatement ss => topLevelJSXList ss
  | .returnStatement (some a) => topLevelJSX a
  | .returnStatement none => []
  | .expressionStatement e => topLevelJSX e
  | .identifierExpr _ => []
  | .memberExpression o _ => topLevelJSX o
  | .functionDeclaration _ _ b => topLevelJSX b
  | .variableDeclaration ds => topLevelJSXList ds
  | .variableDeclarator _ _ (some i) => topLevelJSX i
  | .variableDeclarator _ _ none => []
  | .classDeclaration _ _ (some sc) ms => topLevelJSX sc ++ topLevelJSXList ms
  | .classDeclaration _ _ none ms => topLevelJSXList ms
  | .classMethod _ b => topLevelJSX b
  | .otherNode => []

/-- `topLevelJSX` over sibling nodes, concatenated in order. -/
def topLevelJSXList : List Node → List Node
  | [] => []
  | n :: ns => topLevelJSX n ++ topLevelJSXList ns
end

/-- Top-level JSX among the STRICT descendants of the render body: Babel's
`bodyPath.traverse` (line 200 of parser.ts) never visits the body node
itself, so when the body is itself a JSX node only its children are
scanned; otherwise the walk is `topLevelJSX` from the body's children. -/
def topLevelJSXBelow : Node → List Node
  | .jsxElement _ _ cs => topLevelJSXList cs
  | .jsxFragment _ cs => topLevelJSXList cs
  | n => topLevelJSX n

/-- Lines 502-510 of parser.ts: scan the class member list for the first
`ClassMethod` whose key is the identifier `render`, returning its body. -/
def findRenderMethodBody : List Node → Option Node
  | [] => none
  | m :: rest =>
      match m with
      | .classMethod (some k) b =>
          if k = "render" then some b else findRenderMethodBody rest
      | _ => findRenderMethodBody rest

/-- Lines 492-530 of parser.ts, `getFunctionBody`: the syntactic body that
will be scanned for markup, or `none` when there is none. -/
def getFunctionBody : Node → Option Node
  | .functionDeclaration _ _ body => some body
  | .classDeclaration _ _ _ members => findRenderMethodBody members
  | .variableDeclarator _ _ (some init) =>
      match init with
      | .arrowFunctionExpression body => some body
      | .functionExpression body => some body
      | _ => none
  | _ => none

/-- Lines 183-223 of parser.ts, `buildJSXTree`: find the render body, then
process each top-level JSX node found by the descendant traversal; a
top-level fragment is either shown (`addJSXSymbol`) or collapsed
(`processFragmentChildren`), both starting at depth 0. -/
def buildJSXTree (componentNode : Node) (maxDepth : Nat) (showFragments : Bool) :
    List OutlineNode :=
  match getFunctionBody componentNode with
  | none => []
  | some body =>
      (topLevelJSXBelow body).flatMap fun jsx =>
        match jsx with
        | .jsxFragment _ _ =>
            if showFragments then addJSXSymbol jsx 0 maxDepth showFragments
            else processFragmentChildren jsx 0 maxDepth showFragments
        | .jsxElement _ _ _ => addJSXSymbol jsx 0 maxDepth showFragments
        | _ => []

/-- Line 86-88 of parser.ts: uppercase-starting name and JSX somewhere in
the declaration. -/
def isFunctionComponent : Node → Bool
  | n@(.functionDeclaration (some name) _ _) => startsWithUppercase name && hasJSXReturn n
  | _ => false

/-- Lines 110-112 of parser.ts: name matches `/^use[A-Z]/`. -/
def isCustomHook : Node → Bool
  | .functionDeclaration (some name) _ _ => matchesHookPattern name
  | _ => false

/-- Lines 101-106 of parser.ts: the superclass patterns accepted by
`isClassComponent` (`matchesPattern` requires the full dotted chain). -/
def superClassQualifies : Option Node → Bool
  | some (.memberExpression (.identifierExpr objName) propName) =>
      objName = "React" && (propName = "Component" || propName = "PureComponent")
  | some (.identifierExpr n) => n = "Component" || n = "PureComponent"
  | _ => false

/-- Lines 91-107 of parser.ts. -/
def isClassComponent : Node → Bool
  | .classDeclaration (some name) _ superClass _ =>
      startsWithUppercase name && superClassQualifies superClass
  | _ => false

/-- Lines 169-180 of parser.ts, `getComponentName`. -/
def getComponentName : Node → String
  | .functionDeclaration id _ _ => id.getD "Anonymous"
  | .classDeclaration id _ _ _ => id.getD "Anonymous"
  | .variableDeclarator (some n) _ _ => n
  | _ => "Unknown"

/-- The three `type` arguments of `createComponentSymbol`. -/
inductive ComponentType where
  | functionComponent
  | arrowComponent
  | classComponent
deriving DecidableEq

/-- The configuration snapshot (`reactOutline.*` settings). -/
structure Config where
  maxJSXDepth : Nat
  showFragments : Bool
  showHooks : Bool

/-- Lines 135-154 of parser.ts, `createComponentSymbol`. -/
def createComponentSymbol (n : Node) (ctype : ComponentType) (cfg : Config) : OutlineNode :=
  let symbolName := getComponentName n
  let range := astRangeToVsCodeRange (nodeLoc n)
  let kind : SymbolKind := if ctype = .classComponent then .classKind else .functionKind
  let detail := if ctype = .classComponent then "Class Component" else "Function Component"
  OutlineNode.mk symbolName detail kind range
    (buildJSXTree n cfg.maxJSXDepth cfg.showFragments)

/-- Lines 157-166 of parser.ts, `createHookSymbol`: never any children. -/
def createHookSymbol (n : Node) : OutlineNode :=
  OutlineNode.mk (getComponentName n) "Hook" .functionKind
    (astRangeToVsCodeRange (nodeLoc n)) []

/-- The check `init.isArrowFunctionExpression() || init.isFunctionExpression()`. -/
def isFunctionLikeInit : Node → Bool
  | .arrowFunctionExpression _ => true
  | .functionExpression _ => true
  | _ => false

mutual
/-- Lines 27-80 of parser.ts: the visitor pass.  At a classified
declaration a symbol is pushed and `path.skip()` prunes the subtree; at an
unclassified node the traversal continues into the children. -/
def visitNode (cfg : Config) : Node → List OutlineNode
  | n@(.functionDeclaration _ _ body) =>
      if isFunctionComponent n then [createComponentSymbol n .functionComponent cfg]
      else if isCustomHook n then
        (if cfg.showHooks then [createHookSymbol n] else [])
      else visitNode cfg body
  | n@(.variableDeclarator id _ init) =>
      (match id, init with
       | some declName, some initExpr =>
           if isFunctionLikeInit initExpr then
             if startsWithUppercase declName && hasJSXReturn initExpr then
               [createComponentSymbol n .arrowComponent cfg]
             else if matchesHookPattern declName then
               (if cfg.showHooks then [createHookSymbol n] else [])
             else visitNode cfg initExpr
           else visitNode cfg initExpr
       | _, some initExpr => visitNode cfg initExpr
       | _, none => [])
  | n@(.classDeclaration _ _ superClass members) =>
      if isClassComponent n then [createComponentSymbol n .classComponent cfg]
      else
        (match superClass with
         | some sc => visitNode cfg sc
         | none => []) ++ visitList cfg members
  | .jsxElement _ _ cs => visitList cfg cs
  | .jsxFragment _ cs => visitList cfg cs
  | .jsxText _ => []
  | .jsxExpressionContainer e => visitNode cfg e
  | .jsxEmptyExpression => []
  | .jsxSpreadChild e => visitNode cfg e
  | .logicalExpression _ l r => visitNode cfg l ++ visitNode cfg r
  | .conditionalExpression t c a => visitNode cfg t ++ visitNode cfg c ++ visitNode cfg a
  | .callExpression f args => visitNode cfg f ++ visitList cfg args
  | .arrowFunctionExpression b => visitNode cfg b
  | .functionExpression b => visitNode cfg b
  | .blockStatement ss => visitList cfg ss
  | .returnStatement (some a) => visitNode cfg a
  | .returnStatement none => []
  | .expressionStatement e => visitNode cfg e
  | .identifierExpr _ => []
  | .memberExpression o _ => visitNode cfg o
  | .variableDeclaration ds => visitList cfg ds
  | .classMethod _ b => visitNode cfg b
  | .otherNode => []

/-- The visitor pass over sibling nodes, in document order. -/
def visitList (cfg : Config) : List Node → List OutlineNode
  | [] => []
  | n :: ns => visitNode cfg n ++ visitList cfg ns
end

/-- Lines 7-83 of parser.ts, `getSymbolsFromDocument`, applied to an
already parsed module (parse failure returns `[]` before this point). -/
def getSymbolsFromDocument (program : List Node) (cfg : Config) : List OutlineNode :=
  visitList cfg program

mutual
/-- Depth-annotated preorder flattening of one outline node: the node's
own (depth, name) pair followed by its flattened children one level
deeper.  Two outline forests flatten equal iff their name trees are
equal, giving a decidable way to state concrete outline shapes. -/
def flattenSym : OutlineNode → Nat → List (Nat × String)
  | .mk symName _ _ _ cs, d => (d, symName) :: flattenForest cs (d + 1)

/-- Flattening of an outline forest at a given depth. -/
def flattenForest : List OutlineNode → Nat → List (Nat × String)
  | [], _ => []
  | s :: rest, d => flattenSym s d ++ flattenForest rest d
end

/-- Flattened shape of a produced outline (top-level entries at depth 0). -/
def outlineShapes (syms : List OutlineNode) : List (Nat × String) :=
  flattenForest syms 0

/-- Is the node a `JSXFragment`? -/
def isFragmentNode : Node → Bool
  | .jsxFragment _ _ => true
  | _ => false

mutual
/-- Height of one outline node: 1 plus the height of its child forest. -/
def symHeight : OutlineNode → Nat
  | .mk _ _ _ _ cs => 1 + forestHeight cs

/-- Height of an outline forest: 0 for the empty forest, otherwise the
maximum height of its roots.  A markup node at depth k (roots at depth 0)
exists in a forest exactly when the forest's height exceeds k. -/
def forestHeight : List OutlineNode → Nat
  | [] => 0
  | s :: rest => Nat.max (symHeight s) (forestHeight rest)
end

mutual
/-- Number of outline nodes in one subtree. -/
def symCount : OutlineNode → Nat
  | .mk _ _ _ _ cs => 1 + forestCount cs

/-- Number of outline nodes in a forest. -/
def forestCount : List OutlineNode → Nat
  | [] => 0
  | s :: rest => symCount s + forestCount rest
end

mutual
/-- Number of fragment-labelled outline nodes in one subtree. -/
def symFragCount : OutlineNode → Nat
  | .mk symName _ _ _ cs => (if symName = "<Fragment>" then 1 else 0) + forestFragCount cs

/-- Number of fragment-labelled outline nodes in a forest. -/
def forestFragCount : List OutlineNode → Nat
  | [] => 0
  | s :: rest => symFragCount s + forestFragCount rest
end

mutual
/-- Every node in the subtree is a markup entry: markup outline nodes are
exactly those built with an empty detail string, while component, class
and hook entries carry a non-empty detail. -/
def symAllMarkup : OutlineNode → Bool
  | .mk _ detail _ _ cs => (detail == "") && forestAllMarkup cs

/-- `symAllMarkup` over a forest. -/
def forestAllMarkup : List OutlineNode → Bool
  | [] => true
  | s :: rest => symAllMarkup s && forestAllMarkup rest
end

mutual
/-- Replace a fragment-labelled outline node by its (recursively
collapsed) children; keep any other node, collapsing below it. -/
def collapseSym : OutlineNode → List OutlineNode
  | .mk symName detail kind range cs =>
      if symName = "<Fragment>" then collapseForest cs
      else [.mk symName detail kind range (collapseForest cs)]

/-- `collapseSym` over a forest, concatenated in order. -/
def collapseForest : List OutlineNode → List OutlineNode
  | [] => []
  | s :: rest => collapseSym s ++ collapseForest rest
end

mutual
/-- Structural size of an embedded AST node: one per constructor.  Any
recursive step of the outline builder strictly decreases it, and the
builder's depth argument grows by at most one per step, so
`d + nodeSize n ≤ maxDepth` guarantees the depth cutoff never fires while
processing `n` from depth `d`. -/
def nodeSize : Node → Nat
  | .jsxElement _ _ cs => 1 + nodeSizeList cs
  | .jsxFragment _ cs => 1 + nodeSizeList cs
  | .jsxText _ => 1
  | .jsxExpressionContainer e => 1 + nodeSize e
  | .jsxEmptyExpression => 1
  | .jsxSpreadChild e => 1 + nodeSize e
  | .logicalExpression _ l r => 1 + nodeSize l + nodeSize r
  | .conditionalExpression t c a => 1 + nodeSize t + nodeSize c + nodeSize a
  | .callExpression f args => 1 + nodeSize f + nodeSizeList args
  | .arrowFunctionExpression b => 1 + nodeSize b
  | .functionExpression b => 1 + nodeSize b
  | .blockStatement ss => 1 + nodeSizeList ss
  | .returnStatement (some a) => 1 + nodeSize a
  | .returnStatement none => 1
  | .expressionStatement e => 1 + nodeSize e
  | .identifierExpr _ => 1
  | .memberExpression o _ => 1 + nodeSize o
  | .functionDeclaration _ _ b => 1 + nodeSize b
  | .variableDeclaration ds => 1 + nodeSizeList ds
  | .variableDeclarator _ _ (some i) => 1 + nodeSize i
  | .variableDeclarator _ _ none => 1
  | .classDeclaration _ _ (some sc) ms => 1 + nodeSize sc + nodeSizeList ms
  | .classDeclaration _ _ none ms => 1 + nodeSizeList ms
  | .classMethod _ b => 1 + nodeSize b
  | .otherNode => 1

/-- `nodeSize` summed over a list. -/
def nodeSizeList : List Node → Nat
  | [] => 0
  | n :: ns => nodeSize n + nodeSizeList ns
end

/-- Scenario A of the specification: the module
`const Button = ({label}) => (<button><span>{label}</span></button>)`
(Babel strips the parentheses; the arrow body is the `button` element). -/
def scenarioAProgram : List Node :=
  [.variableDeclaration [.variableDeclarator (some "Button") none
    (some (.arrowFunctionExpression
      (.jsxElement (.jsxIdentifier "button") none
        [.jsxElement (.jsxIdentifier "span") none
          [.jsxExpressionContainer (.identifierExpr "label")]])))]]

/-- The default configuration: `maxJSXDepth = 2`, fragments and hooks
shown. -/
def defaultConfig : Config :=
  { maxJSXDepth := 2, showFragments := true, showHooks := true }

/-- A sample parser location used by concrete witnesses. -/
def sampleLoc : AstLoc :=
  { start := { line := 5, column := 2 }, stop := { line := 7, column := 10 } }

/-- A class with an uppercase name extending `React.Component`, whose
member list has no method named `render`:
`class Foo extends React.Component { componentDidMount() {} }`. -/
def classWithoutRenderProgram : List Node :=
  [.classDeclaration (some "Foo") none
    (some (.memberExpression (.identifierExpr "React") "Component"))
    [.classMethod (some "componentDidMount") (.blockStatement [])]]

/-- A qualifying function declaration (uppercase, returns JSX) nested
inside an outer declaration that is itself classified as a component:
`function Outer() { function Inner() { return <div/> } return <span/> }`. -/
def nestedInClassifiedProgram : List Node :=
  [.functionDeclaration (some "Outer") none (.blockStatement
    [.functionDeclaration (some "Inner") none (.blockStatement
      [.returnStatement (some (.jsxElement (.jsxIdentifier "div") none []))]),
     .returnStatement (some (.jsxElement (.jsxIdentifier "span") none []))])]

/-- A qualifying function declaration nested inside an outer declaration
that is NOT classified (lowercase name, no hook pattern):
`function outer() { function Inner() { return <div/> } }`. -/
def nestedInUnclassifiedProgram : List Node :=
  [.functionDeclaration (some "outer") none (.blockStatement
    [.functionDeclaration (some "Inner") none (.blockStatement
      [.returnStatement (some (.jsxElement (.jsxIdentifier "div") none []))])])]

/-- A component whose returned markup nests a fragment under an element,
deep enough that `maxJSXDepth = 2` truncates below the fragment:
`const C = () => { return <div><><span><b/></span></></div> }`. -/
def fragmentUnderCutoffProgram : List Node :=
  [.variableDeclaration [.variableDeclarator (some "C") none
    (some (.arrowFunctionExpression (.blockStatement
      [.returnStatement (some (.jsxElement (.jsxIdentifier "div") none
        [.jsxFragment none
          [.jsxElement (.jsxIdentifier "span") none
            [.jsxElement (.jsxIdentifier "b") none []]]]))])))]]

/-- A component whose fragment sits on the right of `&&` inside an
embedded expression: `const D = () => { return <div>{x && <><em/></>}</div> }`. -/
def fragmentInExpressionProgram : List Node :=
  [.variableDeclaration [.variableDeclarator (some "D") none
    (some (.arrowFunctionExpression (.blockStatement
      [.returnStatement (some (.jsxElement (.jsxIdentifier "div") none
        [.jsxExpressionContainer (.logicalExpression .andAnd (.identifierExpr "x")
          (.jsxFragment none [.jsxElement (.jsxIdentifier "em") none []]))]))])))]]

/-- A callback argument whose block body holds two immediate `return`
statements, each returning markup: `x => { return <a/>; return <b/> }`. -/
def twoReturnCallbackArg : Node :=
  .arrowFunctionExpression (.blockStatement
    [.returnStatement (some (.jsxElement (.jsxIdentifier "a") none [])),
     .returnStatement (some (.jsxElement (.jsxIdentifier "b") none []))])

/-- Number of immediate `return` statements in a statement list. -/
def countReturnStatements : List Node → Nat
  | [] => 0
  | .returnStatement _ :: rest => 1 + countReturnStatements rest
  | _ :: rest => countReturnStatements rest

/-- Upper bound on the outline nodes one call-expression argument can
contribute: 1 for a function-like argument whose body is directly markup,
the number of immediate `return` statements for a block body, 0 for
everything else. -/
def callbackReturnBound : Node → Nat
  | .arrowFunctionExpression (.jsxElement _ _ _) => 1
  | .arrowFunctionExpression (.jsxFragment _ _) => 1
  | .arrowFunctionExpression (.blockStatement ss) => countReturnStatements ss
  | .functionExpression (.jsxElement _ _ _) => 1
  | .functionExpression (.jsxFragment _ _) => 1
  | .functionExpression (.blockStatement ss) => countReturnStatements ss
  | _ => 0

/-- `callbackReturnBound` summed over an argument list. -/
def callbackReturnBoundList : List Node → Nat
  | [] => 0
  | a :: rest => callbackReturnBound a + callbackReturnBoundList rest

/-- Default configuration with fragments hidden. -/
def hiddenFragmentConfig : Config :=
  { maxJSXDepth := 2, showFragments := false, showHooks := true }

/-- Depth-5 configuration with fragments shown. -/
def deepShownConfig : Config :=
  { maxJSXDepth := 5, showFragments := true, showHooks := true }

/-- Depth-5 configuration with fragments hidden. -/
def deepHiddenConfig : Config :=
  { maxJSXDepth := 5, showFragments := false, showHooks := true }

/-- Total number of markup outline nodes across the produced document
outline (the entries' children forests). -/
def childMarkupCount : List OutlineNode → Nat
  | [] => 0
  | s :: rest => forestCount s.children + childMarkupCount rest

mutual
/-- Fragments are \"well behaved\" below this markup node: every fragment
occurs directly as a JSX child (where hiding collapses it), never in an
embedded-expression emission position (logical right operand, ternary
branch, callback body, callback return argument - where `addJSXSymbol`
is called regardless of `showFragments`), and no element's resolved tag
collides with the reserved fragment label. -/
def fwbNode : Node → Bool
  | .jsxElement tag loc cs =>
      (getJSXTagName (.jsxElement tag loc cs) != "<Fragment>") && fwbList cs
  | .jsxFragment _ cs => fwbList cs
  | .jsxExpressionContainer e => fwbExpr e
  | _ => true

/-- `fwbNode` over the children of a JSX node. -/
def fwbList : List Node → Bool
  | [] => true
  | c :: rest => fwbNode c && fwbList rest

/-- Well-behavedness of an expression inside a container: emission
positions hold no fragment. -/
def fwbExpr : Node → Bool
  | .logicalExpression _ _ r => !isFragmentNode r && fwbNode r
  | .conditionalExpression _ c a =>
      (!isFragmentNode c && fwbNode c) && (!isFragmentNode a && fwbNode a)
  | .callExpression _ args => fwbArgs args
  | _ => true

/-- `fwbArg` over a call's arguments. -/
def fwbArgs : List Node → Bool
  | [] => true
  | a :: rest => fwbArg a && fwbArgs rest

/-- Well-behavedness of one call argument. -/
def fwbArg : Node → Bool
  | .arrowFunctionExpression body => fwbCallbackBody body
  | .functionExpression body => fwbCallbackBody body
  | _ => true

/-- Well-behavedness of a callback body: no direct fragment body; block
bodies are checked statement-wise. -/
def fwbCallbackBody : Node → Bool
  | .jsxElement tag loc cs =>
      (getJSXTagName (.jsxElement tag loc cs) != "<Fragment>") && fwbList cs
  | .jsxFragment _ _ => false
  | .blockStatement ss => fwbStmts ss
  | _ => true

/-- `fwbStmt` over a callback block's statements. -/
def fwbStmts : List Node → Bool
  | [] => true
  | s :: rest => fwbStmt s && fwbStmts rest

/-- Well-behavedness of one callback statement: a `return` of markup must
not return a fragment. -/
def fwbStmt : Node → Bool
  | .returnStatement (some a) => !isFragmentNode a && fwbNode a
  | _ => true
end

/-- The single declarator of Scenario A, named for concrete witnesses. -/
def scenarioAButton : Node :=
  .variableDeclarator (some "Button") none
    (some (.arrowFunctionExpression
      (.jsxElement (.jsxIdentifier "button") none
        [.jsxElement (.jsxIdentifier "span") none
          [.jsxExpressionContainer (.identifierExpr "label")]])))

/-- The nested `Inner` declaration of `nestedInUnclassifiedProgram`. -/
def innerComponentDecl : Node :=
  .functionDeclaration (some "Inner") none (.blockStatement
    [.returnStatement (some (.jsxElement (.jsxIdentifier "div") none []))])

/-- A well-behaved markup sample for the fragment-toggle witness:
`<div><><em/></></div>`. -/
def fragmentToggleSample : Node :=
  .jsxElement (.jsxIdentifier "div") none
    [.jsxFragment none [.jsxElement (.jsxIdentifier "em") none []]]

example :
    outlineShapes (getSymbolsFromDocument
      [.variableDeclaration [.variableDeclarator (some "Button") none
        (some (.arrowFunctionExpression
          (.jsxElement (.jsxIdentifier "button") none
            [.jsxElement (.jsxIdentifier "span") none
              [.jsxExpressionContainer (.identifierExpr "label")]])))]]
      { maxJSXDepth := 2, showFragments := true, showHooks := true }) =
    [(0, "Button"), (1, "span")] := by decide

theorem jsxChildSymbols_eq (c : Node) (d maxd : Nat) (sf : Bool) :
    jsxChildSymbols c d maxd sf =
      match c with
      | .jsxElement _ _ _ => addJSXSymbol c d maxd sf
      | .jsxFragment _ _ =>
          if !sf then processFragmentChildren c d maxd sf else addJSXSymbol c d maxd sf
      | .jsxExpressionContainer _ => processJSXExpression c d maxd sf
      | _ => [] := by
  cases c <;> rfl

theorem fragmentChildSymbols_eq (c : Node) (d maxd : Nat) (sf : Bool) :
    fragmentChildSymbols c d maxd sf =
      match c with
      | .jsxElement _ _ _ => addJSXSymbol c d maxd sf
      | .jsxFragment _ _ => processFragmentChildren c d maxd sf
      | .jsxExpressionContainer _ => processJSXExpression c d maxd sf
      | _ => [] := by
  cases c <;> rfl

theorem callbackBodyJSX_eq (body : Node) (d maxd : Nat) (sf : Bool) :
    callbackBodyJSX body d maxd sf =
      match body with
      | .jsxElement _ _ _ => addJSXSymbol body d maxd sf
      | .jsxFragment _ _ => addJSXSymbol body d maxd sf
      | .blockStatement ss => callbackReturnLoop ss d maxd sf
      | _ => [] := by
  cases body <;> rfl

theorem addJSXSymbol_of_ge (n : Node) {d maxd : Nat} (sf : Bool) (h : d ≥ maxd) :
    addJSXSymbol n d maxd sf = [] := by
  cases n <;> simp [addJSXSymbol, h]

theorem addJSXSymbol_ne_nil (n : Node) {d maxd : Nat} (sf : Bool) (h : d < maxd) :
    addJSXSymbol n d maxd sf ≠ [] := by
  have hd : ¬ d ≥ maxd := by omega
  cases n <;> simp [addJSXSymbol, hd]

theorem addJSXSymbol_length_le_one (n : Node) (d maxd : Nat) (sf : Bool) :
    (addJSXSymbol n d maxd sf).length ≤ 1 := by
  by_cases hd : d ≥ maxd
  · rw [addJSXSymbol_of_ge n sf hd]
    simp
  · cases n <;> simp [addJSXSymbol, hd]

/-- C1: the specification expects the outline of
`const Button = ({label}) => (<button><span>{label}</span></button>)` with
`maxDepth = 2` to be Button → button → span, the markup tree rooted at the
expression-body element itself.  The code instead never emits the root
`button`: Babel's `bodyPath.traverse` visits only strict descendants of
the body, so when the arrow body is itself the JSX element, only its
inner elements pass the top-level test, and the outline is
Button → span. -/
theorem c1_expression_body_root_not_emitted :
    outlineShapes (getSymbolsFromDocument scenarioAProgram defaultConfig) =
      [(0, "Button"), (1, "span")] ∧
    outlineShapes (getSymbolsFromDocument scenarioAProgram defaultConfig) ≠
      [(0, "Button"), (1, "button"), (2, "span")] :=
  ⟨by decide, by decide⟩

/-- C3, counterexample: `class Foo extends React.Component
{ componentDidMount() {} }` has a qualifying superclass, an uppercase
name and no `render` method, yet the extractor DOES emit an outline node
for it (one entry, named Foo), refuting the claim that no node is
emitted. -/
theorem c3_counterexample :
    getSymbolsFromDocument classWithoutRenderProgram defaultConfig ≠ [] := by
  intro h
  have h2 : outlineShapes (getSymbolsFromDocument classWithoutRenderProgram defaultConfig) =
      [(0, "Foo")] := by decide
  rw [h] at h2
  exact absurd h2 (by decide)

/-- C3, amended: a class declaration with an uppercase-starting name and a
qualifying superclass but no instance method named `render` IS emitted,
as a `Class Component` outline node whose child sequence is empty (the
render-body locator finds nothing, so no markup tree is built). -/
theorem c3_renderless_class_emitted_childless (className : String) (loc : Option AstLoc)
    (sc : Node) (members : List Node) (cfg : Config)
    (hup : startsWithUppercase className = true)
    (hsc : superClassQualifies (some sc) = true)
    (hrender : findRenderMethodBody members = none) :
    getSymbolsFromDocument [.classDeclaration (some className) loc (some sc) members] cfg =
      [OutlineNode.mk className "Class Component" .classKind (astRangeToVsCodeRange loc) []] := by
  simp +decide [getSymbolsFromDocument, visitList, visitNode, isClassComponent, hup, hsc,
    createComponentSymbol, getComponentName, nodeLoc, buildJSXTree, getFunctionBody, hrender]

/-- Witness for C3's amended theorem at the concrete render-less class. -/
theorem c3_witness :
    getSymbolsFromDocument classWithoutRenderProgram defaultConfig =
      [OutlineNode.mk "Foo" "Class Component" .classKind (astRangeToVsCodeRange none) []] :=
  c3_renderless_class_emitted_childless "Foo" none
    (.memberExpression (.identifierExpr "React") "Component")
    [.classMethod (some "componentDidMount") (.blockStatement [])] defaultConfig
    (by decide) (by decide) rfl

/-- C10: unwrapping of an embedded binary logical expression is
operator-insensitive - the result neither depends on the operator
(`&&`, `||`, `??`) nor on the left operand - and it is non-empty exactly
when the right operand is a markup element or fragment and the depth
cutoff has not fired.  In particular the operator, the left operand and
non-markup right operands never produce a node. -/
theorem c10_logical_unwrapping_operator_insensitive (op1 op2 : LogicalOperator)
    (l1 l2 r : Node) (d maxd : Nat) (sf : Bool) :
    processJSXExpression (.jsxExpressionContainer (.logicalExpression op1 l1 r)) d maxd sf =
      processJSXExpression (.jsxExpressionContainer (.logicalExpression op2 l2 r)) d maxd sf ∧
    (processJSXExpression (.jsxExpressionContainer (.logicalExpression op1 l1 r)) d maxd sf ≠ []
      ↔ (isJSXElementOrFragment r = true ∧ d < maxd)) := by
  constructor
  · simp [processJSXExpression, jsxExpressionSymbols]
  · by_cases hd : d ≥ maxd
    · have h2 : ¬ d < maxd := by omega
      simp [processJSXExpression, hd, h2]
    · have hlt : d < maxd := by omega
      by_cases hr : isJSXElementOrFragment r = true
      · simp [processJSXExpression, jsxExpressionSymbols, hd, hr, hlt,
          addJSXSymbol_ne_nil r sf hlt]
      · have hr2 : isJSXElementOrFragment r = false := by
          revert hr
          cases isJSXElementOrFragment r <;> simp
        simp [processJSXExpression, jsxExpressionSymbols, hd, hr2, hlt]

theorem processJSXExpression_logical (op : LogicalOperator) (l r : Node) (d maxd : Nat)
    (sf : Bool) (hr : isJSXElementOrFragment r = true) :
    processJSXExpression (.jsxExpressionContainer (.logicalExpression op l r)) d maxd sf =
      addJSXSymbol r d maxd sf := by
  by_cases hd : d ≥ maxd
  · rw [addJSXSymbol_of_ge r sf hd]
    simp [processJSXExpression, hd]
  · simp [processJSXExpression, jsxExpressionSymbols, hd, hr]

theorem jsxChildLoop_cons_logical (op : LogicalOperator) (l r : Node) (rest : List Node)
    (d maxd : Nat) (sf : Bool) (hr : isJSXElementOrFragment r = true)
    (hfrag : isFragmentNode r = true → sf = true) :
    jsxChildLoop (.jsxExpressionContainer (.logicalExpression op l r) :: rest) d maxd sf =
      jsxChildLoop (r :: rest) d maxd sf := by
  have hhead : jsxChildSymbols (.jsxExpressionContainer (.logicalExpression op l r))
      (d + 1) maxd sf = jsxChildSymbols r (d + 1) maxd sf := by
    by_cases hd : d + 1 ≥ maxd
    · cases r <;>
        simp_all [jsxChildSymbols, jsxExpressionSymbols, isJSXElementOrFragment,
          isFragmentNode, addJSXSymbol]
    · cases r <;>
        simp_all [jsxChildSymbols, jsxExpressionSymbols, isJSXElementOrFragment,
          isFragmentNode, addJSXSymbol]
  simp only [jsxChildLoop, hhead]

/-- C6: an embedded-expression child `{a && b}` of a markup node whose
right operand is markup is processed exactly as the literal markup child
`b` in the same position would be: the braces and the logical expression
consume no depth level, and the left operand contributes nothing (the
fragment proviso reflects that a literal fragment child collapses when
`showFragments` is false, while expression unwrapping always emits). -/
theorem c6_logical_child_without_depth_cost (tag : JSXTagExpr) (loc : Option AstLoc)
    (rest : List Node) (op : LogicalOperator) (l r : Node) (d maxd : Nat) (sf : Bool)
    (hr : isJSXElementOrFragment r = true)
    (hfrag : isFragmentNode r = true → sf = true) :
    addJSXSymbol
        (.jsxElement tag loc (.jsxExpressionContainer (.logicalExpression op l r) :: rest))
        d maxd sf =
      addJSXSymbol (.jsxElement tag loc (r :: rest)) d maxd sf := by
  by_cases hd : d ≥ maxd
  · rw [addJSXSymbol_of_ge _ sf hd, addJSXSymbol_of_ge _ sf hd]
  · simp [addJSXSymbol, hd, getJSXTagName,
      jsxChildLoop_cons_logical op l r rest d maxd sf hr hfrag]

/-- Witness for C6 at `<div>{x && <span/>}</div>` versus `<div><span/></div>`,
depth 0, `maxDepth` 2, fragments shown. -/
theorem c6_witness :
    addJSXSymbol (.jsxElement (.jsxIdentifier "div") none
        [.jsxExpressionContainer (.logicalExpression .andAnd (.identifierExpr "x")
          (.jsxElement (.jsxIdentifier "span") none []))]) 0 2 true =
      addJSXSymbol (.jsxElement (.jsxIdentifier "div") none
        [.jsxElement (.jsxIdentifier "span") none []]) 0 2 true :=
  c6_logical_child_without_depth_cost (.jsxIdentifier "div") none [] .andAnd
    (.identifierExpr "x") (.jsxElement (.jsxIdentifier "span") none []) 0 2 true
    (by decide) (fun _ => rfl)

/-- C7, counterexample: the callback `x => { return <a/>; return <b/> }`
has two immediate markup-returning `return` statements, and the call
unwrapper emits one subtree for each, refuting \"at most one
representative markup subtree per callback\". -/
theorem c7_counterexample :
    ¬ ((traverseCallExpressionForJSX [twoReturnCallbackArg] 0 3 true).length ≤ 1) := by
  decide

theorem callbackStmtJSX_length_le (st : Node) (d maxd : Nat) (sf : Bool) :
    (callbackStmtJSX st d maxd sf).length ≤ 1 := by
  cases st
  case returnStatement a =>
    cases a with
    | some arg =>
      by_cases h : isJSXElementOrFragment arg = true
      · have := addJSXSymbol_length_le_one arg d maxd sf
        simpa [callbackStmtJSX, h] using this
      · simp [callbackStmtJSX, h]
    | none => simp [callbackStmtJSX]
  all_goals simp [callbackStmtJSX]

theorem callbackReturnLoop_length_le (ss : List Node) (d maxd : Nat) (sf : Bool) :
    (callbackReturnLoop ss d maxd sf).length ≤ countReturnStatements ss := by
  induction ss with
  | nil => simp [callbackReturnLoop, countReturnStatements]
  | cons st rest ih =>
    simp only [callbackReturnLoop, List.length_append]
    cases st
    case returnStatement a =>
      have h1 := callbackStmtJSX_length_le (.returnStatement a) d maxd sf
      simp only [countReturnStatements]
      omega
    all_goals
      simp_all [callbackStmtJSX, countReturnStatements]

theorem callbackArgJSX_length_le (arg : Node) (d maxd : Nat) (sf : Bool) :
    (callbackArgJSX arg d maxd sf).length ≤ callbackReturnBound arg := by
  cases arg
  case arrowFunctionExpression body =>
    cases body
    case jsxElement t l cs =>
      have h := addJSXSymbol_length_le_one (.jsxElement t l cs) d maxd sf
      simp only [callbackArgJSX, callbackBodyJSX_eq] at h ⊢
      simpa [callbackReturnBound] using h
    case jsxFragment l cs =>
      have h := addJSXSymbol_length_le_one (.jsxFragment l cs) d maxd sf
      simp only [callbackArgJSX, callbackBodyJSX_eq] at h ⊢
      simpa [callbackReturnBound] using h
    case blockStatement ss =>
      have h := callbackReturnLoop_length_le ss d maxd sf
      simpa [callbackArgJSX, callbackBodyJSX, callbackReturnBound] using h
    all_goals simp [callbackArgJSX, callbackBodyJSX, callbackReturnBound]
  case functionExpression body =>
    cases body
    case jsxElement t l cs =>
      have h := addJSXSymbol_length_le_one (.jsxElement t l cs) d maxd sf
      simp only [callbackArgJSX, callbackBodyJSX_eq] at h ⊢
      simpa [callbackReturnBound] using h
    case jsxFragment l cs =>
      have h := addJSXSymbol_length_le_one (.jsxFragment l cs) d maxd sf
      simp only [callbackArgJSX, callbackBodyJSX_eq] at h ⊢
      simpa [callbackReturnBound] using h
    case blockStatement ss =>
      have h := callbackReturnLoop_length_le ss d maxd sf
      simpa [callbackArgJSX, callbackBodyJSX, callbackReturnBound] using h
    all_goals simp [callbackArgJSX, callbackBodyJSX, callbackReturnBound]
  all_goals simp [callbackArgJSX, callbackReturnBound]

/-- C7, amended: one representative markup subtree is emitted per
immediate markup-returning `return` statement of a callback's block body
(at most one for a direct markup body, none otherwise); a callback with
at most one immediate `return` - the list-mapping pattern - therefore
contributes at most one subtree, but several immediate `return`
statements each contribute one. -/
theorem c7_one_subtree_per_immediate_return (args : List Node) (d maxd : Nat) (sf : Bool) :
    (traverseCallExpressionForJSX args d maxd sf).length ≤ callbackReturnBoundList args := by
  induction args with
  | nil => simp [traverseCallExpressionForJSX, callbackReturnBoundList]
  | cons arg rest ih =>
    have h := callbackArgJSX_length_le arg d maxd sf
    simp only [traverseCallExpressionForJSX, callbackReturnBoundList, List.length_append]
    omega

/-- C8: a top-level function declaration, or variable declarator with a
function/arrow initializer, whose subtree contains no markup and whose
name does not match the hook pattern, produces no outline node of its
own: the visitor's effect on it equals plain descent into its body (the
uppercase test alone cannot classify it, since classification also
requires `hasJSXReturn`). -/
theorem c8_markupless_nonhook_not_emitted :
    (∀ (cfg : Config) (fname : String) (loc : Option AstLoc) (body : Node),
      containsJSX body = false → matchesHookPattern fname = false →
      visitNode cfg (.functionDeclaration (some fname) loc body) = visitNode cfg body) ∧
    (∀ (cfg : Config) (vname : String) (loc : Option AstLoc) (init : Node),
      isFunctionLikeInit init = true → containsJSX init = false →
      matchesHookPattern vname = false →
      visitNode cfg (.variableDeclarator (some vname) loc (some init)) = visitNode cfg init) := by
  constructor
  · intro cfg fname loc body hjsx hhook
    have h1 : isFunctionComponent (.functionDeclaration (some fname) loc body) = false := by
      simp [isFunctionComponent, hasJSXReturn, hjsx]
    have h2 : isCustomHook (.functionDeclaration (some fname) loc body) = false := by
      simp [isCustomHook, hhook]
    simp [visitNode, h1, h2]
  · intro cfg vname loc init hinit hjsx hhook
    have h1 : hasJSXReturn init = false := by
      cases init <;> simp_all [isFunctionLikeInit, hasJSXReturn, containsJSX]
    simp [visitNode, hinit, h1, hhook]

/-- Witness for C8 at `function Helper() {}` (uppercase name, empty
body, not a hook): the visitor defers to the body without emitting. -/
theorem c8_witness :
    visitNode defaultConfig (.functionDeclaration (some "Helper") none (.blockStatement [])) =
      visitNode defaultConfig (.blockStatement []) :=
  c8_markupless_nonhook_not_emitted.1 defaultConfig "Helper" none (.blockStatement [])
    (by decide) (by decide)

/-- C9: the single conversion point from parser locations to editor
ranges decrements the 1-based start and end lines by one, passes columns
through unchanged, and degrades a missing location to the zero-width
range at document start instead of failing; and every outline node the
markup builder emits carries exactly the conversion of its AST node's
location. -/
theorem c9_range_conversion :
    (∀ loc : AstLoc, astRangeToVsCodeRange (some loc) =
      { start := { line := loc.start.line - 1, column := loc.start.column },
        stop := { line := loc.stop.line - 1, column := loc.stop.column } }) ∧
    astRangeToVsCodeRange none =
      { start := { line := 0, column := 0 }, stop := { line := 0, column := 0 } } ∧
    (∀ (n : Node) (d maxd : Nat) (sf : Bool) (s : OutlineNode),
      s ∈ addJSXSymbol n d maxd sf → s.range = astRangeToVsCodeRange (nodeLoc n)) := by
  refine ⟨fun loc => rfl, rfl, ?_⟩
  intro n d maxd sf s hs
  by_cases hd : d ≥ maxd
  · rw [addJSXSymbol_of_ge n sf hd] at hs
    simp at hs
  · cases n <;> simp [addJSXSymbol, hd] at hs <;> simp [hs, OutlineNode.range, nodeLoc]

/-- Witness for C9's third conjunct at a concrete element with a real
location: the emitted node's range is the conversion of that location. -/
theorem c9_witness :
    (OutlineNode.mk "div" "" SymbolKind.fieldKind (astRangeToVsCodeRange (some sampleLoc))
        []).range =
      astRangeToVsCodeRange (nodeLoc (.jsxElement (.jsxIdentifier "div") (some sampleLoc) [])) :=
  c9_range_conversion.2.2 (.jsxElement (.jsxIdentifier "div") (some sampleLoc) []) 0 1 true _
    (List.Mem.head _)

theorem nodeSize_pos (n : Node) : 1 ≤ nodeSize n := by
  cases n
  case returnStatement a => cases a <;> simp only [nodeSize] <;> omega
  case variableDeclarator id loc init => cases init <;> simp only [nodeSize] <;> omega
  case classDeclaration id loc sc ms => cases sc <;> simp only [nodeSize] <;> omega
  all_goals simp only [nodeSize] <;> omega

theorem forestHeight_append (a b : List OutlineNode) :
    forestHeight (a ++ b) = Nat.max (forestHeight a) (forestHeight b) := by
  induction a with
  | nil => simp [forestHeight]
  | cons s rest ih => simp [forestHeight, ih, Nat.max_assoc]

theorem forestHeight_eq_zero (f : List OutlineNode) (h : forestHeight f = 0) : f = [] := by
  cases f with
  | nil => rfl
  | cons s rest =>
    cases s
    simp [forestHeight, symHeight] at h

mutual
theorem addJSXSymbol_height (n : Node) (d maxd : Nat) (sf : Bool) :
    forestHeight (addJSXSymbol n d maxd sf) ≤ maxd - d := by
  cases n
  case jsxElement tag loc cs =>
    by_cases hd : d ≥ maxd
    · simp [addJSXSymbol, hd, forestHeight]
    · have ih := jsxChildLoop_height cs d maxd sf
      simp [addJSXSymbol, hd, forestHeight, symHeight]
      omega
  case jsxFragment loc cs =>
    by_cases hd : d ≥ maxd
    · simp [addJSXSymbol, hd, forestHeight]
    · have ih := jsxChildLoop_height cs d maxd sf
      simp [addJSXSymbol, hd, forestHeight, symHeight]
      omega
  all_goals by_cases hd : d ≥ maxd <;> simp [addJSXSymbol, hd, forestHeight, symHeight] <;> omega
termination_by sizeOf n

theorem jsxChildLoop_height (cs : List Node) (d maxd : Nat) (sf : Bool) :
    forestHeight (jsxChildLoop cs d maxd sf) ≤ maxd - (d + 1) := by
  cases cs with
  | nil => simp [jsxChildLoop, forestHeight]
  | cons c rest =>
    have ih1 := jsxChildSymbols_height c (d + 1) maxd sf
    have ih2 := jsxChildLoop_height rest d maxd sf
    simp only [jsxChildLoop, forestHeight_append]
    exact Nat.max_le.mpr ⟨ih1, ih2⟩
termination_by sizeOf cs

theorem jsxChildSymbols_height (c : Node) (d maxd : Nat) (sf : Bool) :
    forestHeight (jsxChildSymbols c d maxd sf) ≤ maxd - d := by
  cases c
  case jsxElement tag loc cs =>
    by_cases hd : d ≥ maxd
    · simp [jsxChildSymbols, hd, forestHeight]
    · have ih := jsxChildLoop_height cs d maxd sf
      simp [jsxChildSymbols, hd, forestHeight, symHeight]
      omega
  case jsxFragment loc cs =>
    cases sf with
    | true =>
      by_cases hd : d ≥ maxd
      · simp [jsxChildSymbols, hd, forestHeight]
      · have ih := jsxChildLoop_height cs d maxd true
        simp [jsxChildSymbols, hd, forestHeight, symHeight]
        omega
    | false =>
      have ih := fragmentChildLoop_height cs d maxd false
      simpa [jsxChildSymbols] using ih
  case jsxExpressionContainer e =>
    by_cases hd : d ≥ maxd
    · simp [jsxChildSymbols, hd, forestHeight]
    · have ih := jsxExpressionSymbols_height e d maxd sf
      simpa [jsxChildSymbols, hd] using ih
  all_goals simp [jsxChildSymbols, forestHeight]
termination_by sizeOf c

theorem processFragmentChildren_height (n : Node) (d maxd : Nat) (sf : Bool) :
    forestHeight (processFragmentChildren n d maxd sf) ≤ maxd - d := by
  cases n
  case jsxElement tag loc cs =>
    have ih := fragmentChildLoop_height cs d maxd sf
    simpa [processFragmentChildren] using ih
  case jsxFragment loc cs =>
    have ih := fragmentChildLoop_height cs d maxd sf
    simpa [processFragmentChildren] using ih
  all_goals simp [processFragmentChildren, forestHeight]
termination_by sizeOf n

theorem fragmentChildLoop_height (cs : List Node) (d maxd : Nat) (sf : Bool) :
    forestHeight (fragmentChildLoop cs d maxd sf) ≤ maxd - d := by
  cases cs with
  | nil => simp [fragmentChildLoop, forestHeight]
  | cons c rest =>
    have ih1 := fragmentChildSymbols_height c d maxd sf
    have ih2 := fragmentChildLoop_height rest d maxd sf
    simp only [fragmentChildLoop, forestHeight_append]
    exact Nat.max_le.mpr ⟨ih1, ih2⟩
termination_by sizeOf cs

theorem fragmentChildSymbols_height (c : Node) (d maxd : Nat) (sf : Bool) :
    forestHeight (fragmentChildSymbols c d maxd sf) ≤ maxd - d := by
  cases c
  case jsxElement tag loc cs =>
    by_cases hd : d ≥ maxd
    · simp [fragmentChildSymbols, hd, forestHeight]
    · have ih := jsxChildLoop_height cs d maxd sf
      simp [fragmentChildSymbols, hd, forestHeight, symHeight]
      omega
  case jsxFragment loc cs =>
    have ih := fragmentChildLoop_height cs d maxd sf
    simpa [fragmentChildSymbols] using ih
  case jsxExpressionContainer e =>
    by_cases hd : d ≥ maxd
    · simp [fragmentChildSymbols, hd, forestHeight]
    · have ih := jsxExpressionSymbols_height e d maxd sf
      simpa [fragmentChildSymbols, hd] using ih
  all_goals simp [fragmentChildSymbols, forestHeight]
termination_by sizeOf c

theorem jsxExpressionSymbols_height (e : Node) (d maxd : Nat) (sf : Bool) :
    forestHeight (jsxExpressionSymbols e d maxd sf) ≤ maxd - d := by
  cases e
  case logicalExpression op l r =>
    have ih := addJSXSymbol_height r d maxd sf
    by_cases hr : isJSXElementOrFragment r = true
    · simpa [jsxExpressionSymbols, hr] using ih
    · simp [jsxExpressionSymbols, hr, forestHeight]
  case conditionalExpression t c a =>
    have ih1 := addJSXSymbol_height c d maxd sf
    have ih2 := addJSXSymbol_height a d maxd sf
    by_cases h1 : isJSXElementOrFragment c = true <;>
      by_cases h2 : isJSXElementOrFragment a = true <;>
        simp [jsxExpressionSymbols, h1, h2, forestHeight_append, forestHeight] <;> omega
  case callExpression f args =>
    have ih := traverseCallExpressionForJSX_height args d maxd sf
    simpa [jsxExpressionSymbols] using ih
  all_goals simp [jsxExpressionSymbols, forestHeight]
termination_by sizeOf e

theorem traverseCallExpressionForJSX_height (args : List Node) (d maxd : Nat) (sf : Bool) :
    forestHeight (traverseCallExpressionForJSX args d maxd sf) ≤ maxd - d := by
  cases args with
  | nil => simp [traverseCallExpressionForJSX, forestHeight]
  | cons a rest =>
    have ih1 := callbackArgJSX_height a d maxd sf
    have ih2 := traverseCallExpressionForJSX_height rest d maxd sf
    simp only [traverseCallExpressionForJSX, forestHeight_append]
    exact Nat.max_le.mpr ⟨ih1, ih2⟩
termination_by sizeOf args

theorem callbackArgJSX_height (arg : Node) (d maxd : Nat) (sf : Bool) :
    forestHeight (callbackArgJSX arg d maxd sf) ≤ maxd - d := by
  cases arg
  case arrowFunctionExpression body =>
    have ih := callbackBodyJSX_height body d maxd sf
    simpa [callbackArgJSX] using ih
  case functionExpression body =>
    have ih := callbackBodyJSX_height body d maxd sf
    simpa [callbackArgJSX] using ih
  all_goals simp [callbackArgJSX, forestHeight]
termination_by sizeOf arg

theorem callbackBodyJSX_height (body : Node) (d maxd : Nat) (sf : Bool) :
    forestHeight (callbackBodyJSX body d maxd sf) ≤ maxd - d := by
  cases body
  case jsxElement tag loc cs =>
    by_cases hd : d ≥ maxd
    · simp [callbackBodyJSX, hd, forestHeight]
    · have ih := jsxChildLoop_height cs d maxd sf
      simp [callbackBodyJSX, hd, forestHeight, symHeight]
      omega
  case jsxFragment loc cs =>
    by_cases hd : d ≥ maxd
    · simp [callbackBodyJSX, hd, forestHeight]
    · have ih := jsxChildLoop_height cs d maxd sf
      simp [callbackBodyJSX, hd, forestHeight, symHeight]
      omega
  case blockStatement ss =>
    have ih := callbackReturnLoop_height ss d maxd sf
    simpa [callbackBodyJSX] using ih
  all_goals simp [callbackBodyJSX, forestHeight]
termination_by sizeOf body

theorem callbackReturnLoop_height (ss : List Node) (d maxd : Nat) (sf : Bool) :
    forestHeight (callbackReturnLoop ss d maxd sf) ≤ maxd - d := by
  cases ss with
  | nil => simp [callbackReturnLoop, forestHeight]
  | cons st rest =>
    have ih1 := callbackStmtJSX_height st d maxd sf
    have ih2 := callbackReturnLoop_height rest d maxd sf
    simp only [callbackReturnLoop, forestHeight_append]
    exact Nat.max_le.mpr ⟨ih1, ih2⟩
termination_by sizeOf ss

theorem callbackStmtJSX_height (st : Node) (d maxd : Nat) (sf : Bool) :
    forestHeight (callbackStmtJSX st d maxd sf) ≤ maxd - d := by
  cases st
  case returnStatement a =>
    cases a with
    | some arg =>
      have ih := addJSXSymbol_height arg d maxd sf
      by_cases hr : isJSXElementOrFragment arg = true
      · simpa [callbackStmtJSX, hr] using ih
      · simp [callbackStmtJSX, hr, forestHeight]
    | none => simp [callbackStmtJSX, forestHeight]
  all_goals simp [callbackStmtJSX, forestHeight]
termination_by sizeOf st
end

theorem forestHeight_flatMap_le (l : List Node) (f : Node → List OutlineNode) (k : Nat)
    (h : ∀ x ∈ l, forestHeight (f x) ≤ k) : forestHeight (l.flatMap f) ≤ k := by
  induction l with
  | nil => simp [forestHeight]
  | cons x rest ih =>
    rw [List.flatMap_cons, forestHeight_append]
    have h1 := h x (List.mem_cons_self x rest)
    have h2 := ih fun y hy => h y (List.mem_cons_of_mem x hy)
    exact Nat.max_le.mpr ⟨h1, h2⟩

theorem buildJSXTree_height (n : Node) (maxd : Nat) (sf : Bool) :
    forestHeight (buildJSXTree n maxd sf) ≤ maxd := by
  cases hb : getFunctionBody n with
  | none => simp [buildJSXTree, hb, forestHeight]
  | some body =>
    simp only [buildJSXTree, hb]
    apply forestHeight_flatMap_le
    intro jsx hmem
    clear hmem
    cases jsx
    case jsxElement tag loc cs =>
      simpa using addJSXSymbol_height (.jsxElement tag loc cs) 0 maxd sf
    case jsxFragment loc cs =>
      cases sf with
      | true => simpa using addJSXSymbol_height (.jsxFragment loc cs) 0 maxd true
      | false => simpa using processFragmentChildren_height (.jsxFragment loc cs) 0 maxd false
    all_goals simp [forestHeight]

mutual
/-- Every symbol the visitor pass emits is a component symbol or a hook
symbol; nothing else ever enters the result sequence. -/
theorem mem_visitNode (cfg : Config) (n : Node) (s : OutlineNode)
    (hs : s ∈ visitNode cfg n) :
    (∃ m ct, s = createComponentSymbol m ct cfg) ∨ ∃ m, s = createHookSymbol m := by
  cases n
  case functionDeclaration id loc body =>
    simp only [visitNode] at hs
    split at hs
    · exact Or.inl ⟨_, _, List.mem_singleton.mp hs⟩
    · split at hs
      · split at hs
        · exact Or.inr ⟨_, List.mem_singleton.mp hs⟩
        · simp at hs
      · exact mem_visitNode cfg body s hs
  case variableDeclarator id loc init =>
    cases id with
    | none =>
      cases init with
      | none => simp [visitNode] at hs
      | some i =>
        simp only [visitNode] at hs
        exact mem_visitNode cfg i s hs
    | some declName =>
      cases init with
      | none => simp [visitNode] at hs
      | some i =>
        simp only [visitNode] at hs
        split at hs
        · split at hs
          · exact Or.inl ⟨_, _, List.mem_singleton.mp hs⟩
          · split at hs
            · split at hs
              · exact Or.inr ⟨_, List.mem_singleton.mp hs⟩
              · simp at hs
            · exact mem_visitNode cfg i s hs
        · exact mem_visitNode cfg i s hs
  case classDeclaration id loc superClass members =>
    cases superClass with
    | some sc =>
      simp only [visitNode] at hs
      split at hs
      · exact Or.inl ⟨_, _, List.mem_singleton.mp hs⟩
      · rw [List.mem_append] at hs
        rcases hs with hs | hs
        · exact mem_visitNode cfg sc s hs
        · exact mem_visitList cfg members s hs
    | none =>
      simp only [visitNode] at hs
      split at hs
      · exact Or.inl ⟨_, _, List.mem_singleton.mp hs⟩
      · rw [List.mem_append] at hs
        rcases hs with hs | hs
        · simp at hs
        · exact mem_visitList cfg members s hs
  case jsxElement tag loc cs =>
    simp only [visitNode] at hs
    exact mem_visitList cfg cs s hs
  case jsxFragment loc cs =>
    simp only [visitNode] at hs
    exact mem_visitList cfg cs s hs
  case jsxText t => simp [visitNode] at hs
  case jsxExpressionContainer e =>
    simp only [visitNode] at hs
    exact mem_visitNode cfg e s hs
  case jsxEmptyExpression => simp [visitNode] at hs
  case jsxSpreadChild e =>
    simp only [visitNode] at hs
    exact mem_visitNode cfg e s hs
  case logicalExpression op l r =>
    simp only [visitNode] at hs
    rw [List.mem_append] at hs
    rcases hs with hs | hs
    · exact mem_visitNode cfg l s hs
    · exact mem_visitNode cfg r s hs
  case conditionalExpression t c a =>
    simp only [visitNode] at hs
    rw [List.mem_append, List.mem_append] at hs
    rcases hs with (hs | hs) | hs
    · exact mem_visitNode cfg t s hs
    · exact mem_visitNode cfg c s hs
    · exact mem_visitNode cfg a s hs
  case callExpression f args =>
    simp only [visitNode] at hs
    rw [List.mem_append] at hs
    rcases hs with hs | hs
    · exact mem_visitNode cfg f s hs
    · exact mem_visitList cfg args s hs
  case arrowFunctionExpression b =>
    simp only [visitNode] at hs
    exact mem_visitNode cfg b s hs
  case functionExpression b =>
    simp only [visitNode] at hs
    exact mem_visitNode cfg b s hs
  case blockStatement ss =>
    simp only [visitNode] at hs
    exact mem_visitList cfg ss s hs
  case returnStatement a =>
    cases a with
    | some arg =>
      simp only [visitNode] at hs
      exact mem_visitNode cfg arg s hs
    | none => simp [visitNode] at hs
  case expressionStatement e =>
    simp only [visitNode] at hs
    exact mem_visitNode cfg e s hs
  case identifierExpr nm => simp [visitNode] at hs
  case memberExpression o p =>
    simp only [visitNode] at hs
    exact mem_visitNode cfg o s hs
  case variableDeclaration ds =>
    simp only [visitNode] at hs
    exact mem_visitList cfg ds s hs
  case classMethod k b =>
    simp only [visitNode] at hs
    exact mem_visitNode cfg b s hs
  case otherNode => simp [visitNode] at hs
termination_by sizeOf n

theorem mem_visitList (cfg : Config) (ns : List Node) (s : OutlineNode)
    (hs : s ∈ visitList cfg ns) :
    (∃ m ct, s = createComponentSymbol m ct cfg) ∨ ∃ m, s = createHookSymbol m := by
  cases ns with
  | nil => simp [visitList] at hs
  | cons n rest =>
    simp only [visitList] at hs
    rw [List.mem_append] at hs
    rcases hs with hs | hs
    · exact mem_visitNode cfg n s hs
    · exact mem_visitList cfg rest s hs
termination_by sizeOf ns
end

/-- C2: depth invariant.  Every entry of a produced outline bounds the
height of its children forest by the configured maxDepth - a markup node
at depth k (entry children at depth 0) exists only when that height
exceeds k, so no markup node ever sits at a markup depth ≥ maxDepth -
and with maxDepth = 0 every emitted component or hook entry has an empty
child sequence. -/
theorem c2_depth_invariant (program : List Node) (cfg : Config) (s : OutlineNode)
    (hs : s ∈ getSymbolsFromDocument program cfg) :
    forestHeight s.children ≤ cfg.maxJSXDepth ∧
    (cfg.maxJSXDepth = 0 → s.children = []) := by
  have h := mem_visitList cfg program s hs
  rcases h with ⟨m, ct, rfl⟩ | ⟨m, rfl⟩
  · have hb := buildJSXTree_height m cfg.maxJSXDepth cfg.showFragments
    have hch : (createComponentSymbol m ct cfg).children =
        buildJSXTree m cfg.maxJSXDepth cfg.showFragments := by
      simp [createComponentSymbol, OutlineNode.children]
    constructor
    · rw [hch]
      exact hb
    · intro h0
      apply forestHeight_eq_zero
      rw [hch]
      omega
  · simp [createHookSymbol, OutlineNode.children, forestHeight]

/-- Witness for C2 at the Scenario A document with the default
configuration, instantiated at its single emitted entry. -/
theorem c2_witness :
    forestHeight (createComponentSymbol scenarioAButton .arrowComponent defaultConfig).children ≤
      defaultConfig.maxJSXDepth ∧
    (defaultConfig.maxJSXDepth = 0 →
      (createComponentSymbol scenarioAButton .arrowComponent defaultConfig).children = []) :=
  c2_depth_invariant scenarioAProgram defaultConfig _ (List.Mem.head _)

theorem forestAllMarkup_append (a b : List OutlineNode) :
    forestAllMarkup (a ++ b) = (forestAllMarkup a && forestAllMarkup b) := by
  induction a with
  | nil => simp [forestAllMarkup]
  | cons s rest ih => simp [forestAllMarkup, ih, Bool.and_assoc]

mutual
theorem addJSXSymbol_allMarkup (n : Node) (d maxd : Nat) (sf : Bool) :
    forestAllMarkup (addJSXSymbol n d maxd sf) = true := by
  cases n
  case jsxElement tag loc cs =>
    by_cases hd : d ≥ maxd
    · simp [addJSXSymbol, hd, forestAllMarkup]
    · have ih := jsxChildLoop_allMarkup cs d maxd sf
      simp [addJSXSymbol, hd, forestAllMarkup, symAllMarkup, ih]
  case jsxFragment loc cs =>
    by_cases hd : d ≥ maxd
    · simp [addJSXSymbol, hd, forestAllMarkup]
    · have ih := jsxChildLoop_allMarkup cs d maxd sf
      simp [addJSXSymbol, hd, forestAllMarkup, symAllMarkup, ih]
  all_goals by_cases hd : d ≥ maxd <;>
    simp [addJSXSymbol, hd, forestAllMarkup, symAllMarkup]
termination_by sizeOf n

theorem jsxChildLoop_allMarkup (cs : List Node) (d maxd : Nat) (sf : Bool) :
    forestAllMarkup (jsxChildLoop cs d maxd sf) = true := by
  cases cs with
  | nil => simp [jsxChildLoop, forestAllMarkup]
  | cons c rest =>
    have ih1 := jsxChildSymbols_allMarkup c (d + 1) maxd sf
    have ih2 := jsxChildLoop_allMarkup rest d maxd sf
    simp [jsxChildLoop, forestAllMarkup_append, ih1, ih2]
termination_by sizeOf cs

theorem jsxChildSymbols_allMarkup (c : Node) (d maxd : Nat) (sf : Bool) :
    forestAllMarkup (jsxChildSymbols c d maxd sf) = true := by
  cases c
  case jsxElement tag loc cs =>
    by_cases hd : d ≥ maxd
    · simp [jsxChildSymbols, hd, forestAllMarkup]
    · have ih := jsxChildLoop_allMarkup cs d maxd sf
      simp [jsxChildSymbols, hd, forestAllMarkup, symAllMarkup, ih]
  case jsxFragment loc cs =>
    cases sf with
    | true =>
      by_cases hd : d ≥ maxd
      · simp [jsxChildSymbols, hd, forestAllMarkup]
      · have ih := jsxChildLoop_allMarkup cs d maxd true
        simp [jsxChildSymbols, hd, forestAllMarkup, symAllMarkup, ih]
    | false =>
      have ih := fragmentChildLoop_allMarkup cs d maxd false
      simpa [jsxChildSymbols] using ih
  case jsxExpressionContainer e =>
    by_cases hd : d ≥ maxd
    · simp [jsxChildSymbols, hd, forestAllMarkup]
    · have ih := jsxExpressionSymbols_allMarkup e d maxd sf
      simpa [jsxChildSymbols, hd] using ih
  all_goals simp [jsxChildSymbols, forestAllMarkup]
termination_by sizeOf c

theorem processFragmentChildren_allMarkup (n : Node) (d maxd : Nat) (sf : Bool) :
    forestAllMarkup (processFragmentChildren n d maxd sf) = true := by
  cases n
  case jsxElement tag loc cs =>
    have ih := fragmentChildLoop_allMarkup cs d maxd sf
    simpa [processFragmentChildren] using ih
  case jsxFragment loc cs =>
    have ih := fragmentChildLoop_allMarkup cs d maxd sf
    simpa [processFragmentChildren] using ih
  all_goals simp [processFragmentChildren, forestAllMarkup]
termination_by sizeOf n

theorem fragmentChildLoop_allMarkup (cs : List Node) (d maxd : Nat) (sf : Bool) :
    forestAllMarkup (fragmentChildLoop cs d maxd sf) = true := by
  cases cs with
  | nil => simp [fragmentChildLoop, forestAllMarkup]
  | cons c rest =>
    have ih1 := fragmentChildSymbols_allMarkup c d maxd sf
    have ih2 := fragmentChildLoop_allMarkup rest d maxd sf
    simp [fragmentChildLoop, forestAllMarkup_append, ih1, ih2]
termination_by sizeOf cs

theorem fragmentChildSymbols_allMarkup (c : Node) (d maxd : Nat) (sf : Bool) :
    forestAllMarkup (fragmentChildSymbols c d maxd sf) = true := by
  cases c
  case jsxElement tag loc cs =>
    by_cases hd : d ≥ maxd
    · simp [fragmentChildSymbols, hd, forestAllMarkup]
    · have ih := jsxChildLoop_allMarkup cs d maxd sf
      simp [fragmentChildSymbols, hd, forestAllMarkup, symAllMarkup, ih]
  case jsxFragment loc cs =>
    have ih := fragmentChildLoop_allMarkup cs d maxd sf
    simpa [fragmentChildSymbols] using ih
  case jsxExpressionContainer e =>
    by_cases hd : d ≥ maxd
    · simp [fragmentChildSymbols, hd, forestAllMarkup]
    · have ih := jsxExpressionSymbols_allMarkup e d maxd sf
      simpa [fragmentChildSymbols, hd] using ih
  all_goals simp [fragmentChildSymbols, forestAllMarkup]
termination_by sizeOf c

theorem jsxExpressionSymbols_allMarkup (e : Node) (d maxd : Nat) (sf : Bool) :
    forestAllMarkup (jsxExpressionSymbols e d maxd sf) = true := by
  cases e
  case logicalExpression op l r =>
    have ih := addJSXSymbol_allMarkup r d maxd sf
    by_cases hr : isJSXElementOrFragment r = true
    · simpa [jsxExpressionSymbols, hr] using ih
    · simp [jsxExpressionSymbols, hr, forestAllMarkup]
  case conditionalExpression t c a =>
    have ih1 := addJSXSymbol_allMarkup c d maxd sf
    have ih2 := addJSXSymbol_allMarkup a d maxd sf
    by_cases h1 : isJSXElementOrFragment c = true <;>
      by_cases h2 : isJSXElementOrFragment a = true <;>
        simp [jsxExpressionSymbols, h1, h2, forestAllMarkup_append, ih1, ih2, forestAllMarkup]
  case callExpression f args =>
    have ih := traverseCallExpressionForJSX_allMarkup args d maxd sf
    simpa [jsxExpressionSymbols] using ih
  all_goals simp [jsxExpressionSymbols, forestAllMarkup]
termination_by sizeOf e

theorem traverseCallExpressionForJSX_allMarkup (args : List Node) (d maxd : Nat) (sf : Bool) :
    forestAllMarkup (traverseCallExpressionForJSX args d maxd sf) = true := by
  cases args with
  | nil => simp [traverseCallExpressionForJSX, forestAllMarkup]
  | cons a rest =>
    have ih1 := callbackArgJSX_allMarkup a d maxd sf
    have ih2 := traverseCallExpressionForJSX_allMarkup rest d maxd sf
    simp [traverseCallExpressionForJSX, forestAllMarkup_append, ih1, ih2]
termination_by sizeOf args

theorem callbackArgJSX_allMarkup (arg : Node) (d maxd : Nat) (sf : Bool) :
    forestAllMarkup (callbackArgJSX arg d maxd sf) = true := by
  cases arg
  case arrowFunctionExpression body =>
    have ih := callbackBodyJSX_allMarkup body d maxd sf
    simpa [callbackArgJSX] using ih
  case functionExpression body =>
    have ih := callbackBodyJSX_allMarkup body d maxd sf
    simpa [callbackArgJSX] using ih
  all_goals simp [callbackArgJSX, forestAllMarkup]
termination_by sizeOf arg

theorem callbackBodyJSX_allMarkup (body : Node) (d maxd : Nat) (sf : Bool) :
    forestAllMarkup (callbackBodyJSX body d maxd sf) = true := by
  cases body
  case jsxElement tag loc cs =>
    by_cases hd : d ≥ maxd
    · simp [callbackBodyJSX, hd, forestAllMarkup]
    · have ih := jsxChildLoop_allMarkup cs d maxd sf
      simp [callbackBodyJSX, hd, forestAllMarkup, symAllMarkup, ih]
  case jsxFragment loc cs =>
    by_cases hd : d ≥ maxd
    · simp [callbackBodyJSX, hd, forestAllMarkup]
    · have ih := jsxChildLoop_allMarkup cs d maxd sf
      simp [callbackBodyJSX, hd, forestAllMarkup, symAllMarkup, ih]
  case blockStatement ss =>
    have ih := callbackReturnLoop_allMarkup ss d maxd sf
    simpa [callbackBodyJSX] using ih
  all_goals simp [callbackBodyJSX, forestAllMarkup]
termination_by sizeOf body

theorem callbackReturnLoop_allMarkup (ss : List Node) (d maxd : Nat) (sf : Bool) :
    forestAllMarkup (callbackReturnLoop ss d maxd sf) = true := by
  cases ss with
  | nil => simp [callbackReturnLoop, forestAllMarkup]
  | cons st rest =>
    have ih1 := callbackStmtJSX_allMarkup st d maxd sf
    have ih2 := callbackReturnLoop_allMarkup rest d maxd sf
    simp [callbackReturnLoop, forestAllMarkup_append, ih1, ih2]
termination_by sizeOf ss

theorem callbackStmtJSX_allMarkup (st : Node) (d maxd : Nat) (sf : Bool) :
    forestAllMarkup (callbackStmtJSX st d maxd sf) = true := by
  cases st
  case returnStatement a =>
    cases a with
    | some arg =>
      have ih := addJSXSymbol_allMarkup arg d maxd sf
      by_cases hr : isJSXElementOrFragment arg = true
      · simpa [callbackStmtJSX, hr] using ih
      · simp [callbackStmtJSX, hr, forestAllMarkup]
    | none => simp [callbackStmtJSX, forestAllMarkup]
  all_goals simp [callbackStmtJSX, forestAllMarkup]
termination_by sizeOf st
end

theorem forestAllMarkup_flatMap (l : List Node) (f : Node → List OutlineNode)
    (h : ∀ x ∈ l, forestAllMarkup (f x) = true) :
    forestAllMarkup (l.flatMap f) = true := by
  induction l with
  | nil => simp [forestAllMarkup]
  | cons x rest ih =>
    rw [List.flatMap_cons, forestAllMarkup_append]
    have h1 := h x (List.mem_cons_self x rest)
    have h2 := ih fun y hy => h y (List.mem_cons_of_mem x hy)
    simp [h1, h2]

theorem buildJSXTree_allMarkup (n : Node) (maxd : Nat) (sf : Bool) :
    forestAllMarkup (buildJSXTree n maxd sf) = true := by
  cases hb : getFunctionBody n with
  | none => simp [buildJSXTree, hb, forestAllMarkup]
  | some body =>
    simp only [buildJSXTree, hb]
    apply forestAllMarkup_flatMap
    intro jsx hmem
    clear hmem
    cases jsx
    case jsxElement tag loc cs =>
      simpa using addJSXSymbol_allMarkup (.jsxElement tag loc cs) 0 maxd sf
    case jsxFragment loc cs =>
      cases sf with
      | true => simpa using addJSXSymbol_allMarkup (.jsxFragment loc cs) 0 maxd true
      | false =>
        simpa using processFragmentChildren_allMarkup (.jsxFragment loc cs) 0 maxd false
    all_goals simp [forestAllMarkup]

/-- C4, counterexample: in `function Outer() { function Inner() { return
<div/> } return <span/> }` the nested declaration Inner qualifies as a
component, yet no entry named Inner exists anywhere in the result - the
visitor calls `path.skip()` on the classified Outer, so Inner is never
visited or classified; the div of Inner's body even surfaces as plain
markup INSIDE Outer's tree, doubly contradicting emission as an
independent top-level entry. -/
theorem c4_counterexample :
    outlineShapes (getSymbolsFromDocument nestedInClassifiedProgram defaultConfig) =
      [(0, "Outer"), (1, "div"), (1, "span")] ∧
    "Inner" ∉ (outlineShapes (getSymbolsFromDocument nestedInClassifiedProgram
      defaultConfig)).map Prod.snd :=
  ⟨by decide, by decide⟩

/-- C4, amended: the children subtree of every emitted entry consists
exclusively of markup nodes - markup nodes are built with an empty detail
string while component, class and hook entries carry a nonempty detail,
so a nested component or hook declaration never appears inside another
entry's subtree; and a qualifying declaration nested inside an
UNCLASSIFIED enclosing declaration is emitted as an independent top-level
entry, as in `function outer() { function Inner() { return <div/> } }`.
Nesting inside a CLASSIFIED declaration instead suppresses the inner
declaration entirely (see the counterexample). -/
theorem c4_nested_declarations_never_children :
    (∀ (program : List Node) (cfg : Config) (s : OutlineNode),
      s ∈ getSymbolsFromDocument program cfg → forestAllMarkup s.children = true) ∧
    outlineShapes (getSymbolsFromDocument nestedInUnclassifiedProgram defaultConfig) =
      [(0, "Inner"), (1, "div")] := by
  constructor
  · intro program cfg s hs
    rcases mem_visitList cfg program s hs with ⟨m, ct, rfl⟩ | ⟨m, rfl⟩
    · have hb := buildJSXTree_allMarkup m cfg.maxJSXDepth cfg.showFragments
      simpa [createComponentSymbol, OutlineNode.children] using hb
    · simp [createHookSymbol, OutlineNode.children, forestAllMarkup]
  · decide

/-- Witness for C4 at the nested-in-unclassified document, instantiated
at its single emitted entry (the Inner component). -/
theorem c4_witness :
    forestAllMarkup (createComponentSymbol innerComponentDecl .functionComponent
      defaultConfig).children = true :=
  c4_nested_declarations_never_children.1 nestedInUnclassifiedProgram defaultConfig _
    (List.Mem.head _)

theorem forestCount_append (a b : List OutlineNode) :
    forestCount (a ++ b) = forestCount a + forestCount b := by
  induction a with
  | nil => simp [forestCount]
  | cons s rest ih =>
    simp [forestCount, ih] <;> omega

theorem collapseForest_append (a b : List OutlineNode) :
    collapseForest (a ++ b) = collapseForest a ++ collapseForest b := by
  induction a with
  | nil => simp [collapseForest]
  | cons s rest ih => simp [collapseForest, ih, List.append_assoc]

mutual
theorem symCount_collapse (s : OutlineNode) :
    symCount s = forestCount (collapseSym s) + symFragCount s := by
  cases s with
  | mk symName detail kind range cs =>
    have ih := forestCount_collapse cs
    by_cases h : symName = "<Fragment>"
    · simp [symCount, collapseSym, h, symFragCount]
      omega
    · simp [symCount, collapseSym, h, symFragCount, forestCount]
      omega
termination_by sizeOf s

theorem forestCount_collapse (f : List OutlineNode) :
    forestCount f = forestCount (collapseForest f) + forestFragCount f := by
  cases f with
  | nil => simp [forestCount, collapseForest, forestFragCount]
  | cons s rest =>
    have ih1 := symCount_collapse s
    have ih2 := forestCount_collapse rest
    simp only [forestCount, collapseForest, forestFragCount, forestCount_append]
    omega
termination_by sizeOf f
end

mutual
theorem collapse_addJSXSymbol (n : Node) (d d2 maxd : Nat)
    (hf : fwbNode n = true) (hnf : isFragmentNode n = false)
    (hb1 : d + nodeSize n ≤ maxd) (hb2 : d2 + nodeSize n ≤ maxd) :
    collapseForest (addJSXSymbol n d maxd true) = addJSXSymbol n d2 maxd false := by
  have hp := nodeSize_pos n
  have hd : ¬ d ≥ maxd := by omega
  have hd2 : ¬ d2 ≥ maxd := by omega
  cases n
  case jsxElement tag loc cs =>
    simp only [fwbNode, Bool.and_eq_true] at hf
    obtain ⟨hne0, hfl⟩ := hf
    have hne : getJSXTagName (.jsxElement tag loc cs) ≠ "<Fragment>" := by simpa using hne0
    simp only [nodeSize] at hb1 hb2
    have hrec := collapse_jsxChildLoop cs d d2 maxd hfl (by omega) (by omega)
    simp [addJSXSymbol, hd, hd2, collapseForest, collapseSym, hne, hrec]
  case jsxFragment loc cs => simp [isFragmentNode] at hnf
  all_goals simp [addJSXSymbol, hd, hd2, collapseForest, collapseSym, getJSXTagName]
termination_by sizeOf n

theorem collapse_jsxChildLoop (cs : List Node) (d d2 maxd : Nat)
    (hf : fwbList cs = true)
    (hb1 : d + 1 + nodeSizeList cs ≤ maxd) (hb2 : d2 + 1 + nodeSizeList cs ≤ maxd) :
    collapseForest (jsxChildLoop cs d maxd true) = jsxChildLoop cs d2 maxd false := by
  cases cs with
  | nil => simp [jsxChildLoop, collapseForest]
  | cons c rest =>
    simp only [fwbList, Bool.and_eq_true] at hf
    obtain ⟨hc, hrest⟩ := hf
    simp only [nodeSizeList] at hb1 hb2
    have h1 := collapse_jsxChildSymbols c (d + 1) (d2 + 1) maxd hc (by omega) (by omega)
    have h2 := collapse_jsxChildLoop rest d d2 maxd hrest (by omega) (by omega)
    simp only [jsxChildLoop, collapseForest_append, h1, h2]
termination_by sizeOf cs

theorem collapse_jsxChildSymbols (c : Node) (d d2 maxd : Nat)
    (hf : fwbNode c = true)
    (hb1 : d + nodeSize c ≤ maxd) (hb2 : d2 + nodeSize c ≤ maxd) :
    collapseForest (jsxChildSymbols c d maxd true) = jsxChildSymbols c d2 maxd false := by
  have hp := nodeSize_pos c
  have hd : ¬ d ≥ maxd := by omega
  have hd2 : ¬ d2 ≥ maxd := by omega
  cases c
  case jsxElement tag loc cs =>
    simp only [fwbNode, Bool.and_eq_true] at hf
    obtain ⟨hne0, hfl⟩ := hf
    have hne : getJSXTagName (.jsxElement tag loc cs) ≠ "<Fragment>" := by simpa using hne0
    simp only [nodeSize] at hb1 hb2
    have hrec := collapse_jsxChildLoop cs d d2 maxd hfl (by omega) (by omega)
    simp [jsxChildSymbols, hd, hd2, collapseForest, collapseSym, hne, hrec]
  case jsxFragment loc cs =>
    simp only [fwbNode] at hf
    simp only [nodeSize] at hb1 hb2
    have hrec := collapse_fragmentsLoop cs d d2 maxd hf (by omega) (by omega)
    simp [jsxChildSymbols, hd, collapseForest, collapseSym, getJSXTagName, hrec]
  case jsxExpressionContainer e =>
    simp only [fwbNode] at hf
    simp only [nodeSize] at hb1 hb2
    have hrec := collapse_jsxExpressionSymbols e d d2 maxd hf (by omega) (by omega)
    simp [jsxChildSymbols, hd, hd2, hrec]
  all_goals simp [jsxChildSymbols, collapseForest]
termination_by sizeOf c

theorem collapse_fragmentsLoop (cs : List Node) (d d2 maxd : Nat)
    (hf : fwbList cs = true)
    (hb1 : d + 1 + nodeSizeList cs ≤ maxd) (hb2 : d2 + nodeSizeList cs ≤ maxd) :
    collapseForest (jsxChildLoop cs d maxd true) = fragmentChildLoop cs d2 maxd false := by
  cases cs with
  | nil => simp [jsxChildLoop, fragmentChildLoop, collapseForest]
  | cons c rest =>
    simp only [fwbList, Bool.and_eq_true] at hf
    obtain ⟨hc, hrest⟩ := hf
    simp only [nodeSizeList] at hb1 hb2
    have h1 := collapse_fragmentChildSymbols c (d + 1) d2 maxd hc (by omega) (by omega)
    have h2 := collapse_fragmentsLoop rest d d2 maxd hrest (by omega) (by omega)
    simp only [jsxChildLoop, fragmentChildLoop, collapseForest_append, h1, h2]
termination_by sizeOf cs

theorem collapse_fragmentChildSymbols (c : Node) (d d2 maxd : Nat)
    (hf : fwbNode c = true)
    (hb1 : d + nodeSize c ≤ maxd) (hb2 : d2 + nodeSize c ≤ maxd) :
    collapseForest (jsxChildSymbols c d maxd true) = fragmentChildSymbols c d2 maxd false := by
  have hp := nodeSize_pos c
  have hd : ¬ d ≥ maxd := by omega
  have hd2 : ¬ d2 ≥ maxd := by omega
  cases c
  case jsxElement tag loc cs =>
    simp only [fwbNode, Bool.and_eq_true] at hf
    obtain ⟨hne0, hfl⟩ := hf
    have hne : getJSXTagName (.jsxElement tag loc cs) ≠ "<Fragment>" := by simpa using hne0
    simp only [nodeSize] at hb1 hb2
    have hrec := collapse_jsxChildLoop cs d d2 maxd hfl (by omega) (by omega)
    simp [jsxChildSymbols, fragmentChildSymbols, hd, hd2, collapseForest, collapseSym, hne, hrec]
  case jsxFragment loc cs =>
    simp only [fwbNode] at hf
    simp only [nodeSize] at hb1 hb2
    have hrec := collapse_fragmentsLoop cs d d2 maxd hf (by omega) (by omega)
    simp [jsxChildSymbols, fragmentChildSymbols, hd, collapseForest, collapseSym,
      getJSXTagName, hrec]
  case jsxExpressionContainer e =>
    simp only [fwbNode] at hf
    simp only [nodeSize] at hb1 hb2
    have hrec := collapse_jsxExpressionSymbols e d d2 maxd hf (by omega) (by omega)
    simp [jsxChildSymbols, fragmentChildSymbols, hd, hd2, hrec]
  all_goals simp [jsxChildSymbols, fragmentChildSymbols, collapseForest]
termination_by sizeOf c

theorem collapse_jsxExpressionSymbols (e : Node) (d d2 maxd : Nat)
    (hf : fwbExpr e = true)
    (hb1 : d + nodeSize e ≤ maxd) (hb2 : d2 + nodeSize e ≤ maxd) :
    collapseForest (jsxExpressionSymbols e d maxd true) = jsxExpressionSymbols e d2 maxd false := by
  cases e
  case logicalExpression op l r =>
    simp only [fwbExpr, Bool.and_eq_true] at hf
    obtain ⟨hnf0, hfr⟩ := hf
    have hnf : isFragmentNode r = false := by
      revert hnf0
      cases isFragmentNode r <;> simp
    simp only [nodeSize] at hb1 hb2
    by_cases hr : isJSXElementOrFragment r = true
    · have hrec := collapse_addJSXSymbol r d d2 maxd hfr hnf (by omega) (by omega)
      simp [jsxExpressionSymbols, hr, hrec]
    · simp [jsxExpressionSymbols, hr, collapseForest]
  case conditionalExpression t c a =>
    simp only [fwbExpr, Bool.and_eq_true] at hf
    obtain ⟨⟨hnc0, hfc⟩, hna0, hfa⟩ := hf
    have hnc : isFragmentNode c = false := by
      revert hnc0
      cases isFragmentNode c <;> simp
    have hna : isFragmentNode a = false := by
      revert hna0
      cases isFragmentNode a <;> simp
    simp only [nodeSize] at hb1 hb2
    by_cases h1 : isJSXElementOrFragment c = true
    · by_cases h2 : isJSXElementOrFragment a = true
      · have hr1 := collapse_addJSXSymbol c d d2 maxd hfc hnc (by omega) (by omega)
        have hr2 := collapse_addJSXSymbol a d d2 maxd hfa hna (by omega) (by omega)
        simp [jsxExpressionSymbols, h1, h2, collapseForest_append, hr1, hr2]
      · have hr1 := collapse_addJSXSymbol c d d2 maxd hfc hnc (by omega) (by omega)
        simp [jsxExpressionSymbols, h1, h2, collapseForest_append, hr1, collapseForest]
    · by_cases h2 : isJSXElementOrFragment a = true
      · have hr2 := collapse_addJSXSymbol a d d2 maxd hfa hna (by omega) (by omega)
        simp [jsxExpressionSymbols, h1, h2, collapseForest_append, hr2, collapseForest]
      · simp [jsxExpressionSymbols, h1, h2, collapseForest]
  case callExpression f args =>
    simp only [fwbExpr] at hf
    simp only [nodeSize] at hb1 hb2
    have hrec := collapse_traverseCall args d d2 maxd hf (by omega) (by omega)
    simp [jsxExpressionSymbols, hrec]
  all_goals simp [jsxExpressionSymbols, collapseForest]
termination_by sizeOf e

theorem collapse_traverseCall (args : List Node) (d d2 maxd : Nat)
    (hf : fwbArgs args = true)
    (hb1 : d + nodeSizeList args ≤ maxd) (hb2 : d2 + nodeSizeList args ≤ maxd) :
    collapseForest (traverseCallExpressionForJSX args d maxd true) =
      traverseCallExpressionForJSX args d2 maxd false := by
  cases args with
  | nil => simp [traverseCallExpressionForJSX, collapseForest]
  | cons a rest =>
    simp only [fwbArgs, Bool.and_eq_true] at hf
    obtain ⟨ha, hrest⟩ := hf
    simp only [nodeSizeList] at hb1 hb2
    have h1 := collapse_callbackArg a d d2 maxd ha (by omega) (by omega)
    have h2 := collapse_traverseCall rest d d2 maxd hrest (by omega) (by omega)
    simp only [traverseCallExpressionForJSX, collapseForest_append, h1, h2]
termination_by sizeOf args

theorem collapse_callbackArg (arg : Node) (d d2 maxd : Nat)
    (hf : fwbArg arg = true)
    (hb1 : d + nodeSize arg ≤ maxd) (hb2 : d2 + nodeSize arg ≤ maxd) :
    collapseForest (callbackArgJSX arg d maxd true) = callbackArgJSX arg d2 maxd false := by
  cases arg
  case arrowFunctionExpression body =>
    simp only [fwbArg] at hf
    simp only [nodeSize] at hb1 hb2
    have hrec := collapse_callbackBody body d d2 maxd hf (by omega) (by omega)
    simpa [callbackArgJSX] using hrec
  case functionExpression body =>
    simp only [fwbArg] at hf
    simp only [nodeSize] at hb1 hb2
    have hrec := collapse_callbackBody body d d2 maxd hf (by omega) (by omega)
    simpa [callbackArgJSX] using hrec
  all_goals simp [callbackArgJSX, collapseForest]
termination_by sizeOf arg

theorem collapse_callbackBody (body : Node) (d d2 maxd : Nat)
    (hf : fwbCallbackBody body = true)
    (hb1 : d + nodeSize body ≤ maxd) (hb2 : d2 + nodeSize body ≤ maxd) :
    collapseForest (callbackBodyJSX body d maxd true) = callbackBodyJSX body d2 maxd false := by
  have hp := nodeSize_pos body
  have hd : ¬ d ≥ maxd := by omega
  have hd2 : ¬ d2 ≥ maxd := by omega
  cases body
  case jsxElement tag loc cs =>
    simp only [fwbCallbackBody, Bool.and_eq_true] at hf
    obtain ⟨hne0, hfl⟩ := hf
    have hne : getJSXTagName (.jsxElement tag loc cs) ≠ "<Fragment>" := by simpa using hne0
    simp only [nodeSize] at hb1 hb2
    have hrec := collapse_jsxChildLoop cs d d2 maxd hfl (by omega) (by omega)
    simp [callbackBodyJSX, hd, hd2, collapseForest, collapseSym, hne, hrec]
  case jsxFragment loc cs => simp [fwbCallbackBody] at hf
  case blockStatement ss =>
    simp only [fwbCallbackBody] at hf
    simp only [nodeSize] at hb1 hb2
    have hrec := collapse_callbackReturnLoop ss d d2 maxd hf (by omega) (by omega)
    simpa [callbackBodyJSX] using hrec
  all_goals simp [callbackBodyJSX, collapseForest]
termination_by sizeOf body

theorem collapse_callbackReturnLoop (ss : List Node) (d d2 maxd : Nat)
    (hf : fwbStmts ss = true)
    (hb1 : d + nodeSizeList ss ≤ maxd) (hb2 : d2 + nodeSizeList ss ≤ maxd) :
    collapseForest (callbackReturnLoop ss d maxd true) = callbackReturnLoop ss d2 maxd false := by
  cases ss with
  | nil => simp [callbackReturnLoop, collapseForest]
  | cons st rest =>
    simp only [fwbStmts, Bool.and_eq_true] at hf
    obtain ⟨hst, hrest⟩ := hf
    simp only [nodeSizeList] at hb1 hb2
    have h1 := collapse_callbackStmt st d d2 maxd hst (by omega) (by omega)
    have h2 := collapse_callbackReturnLoop rest d d2 maxd hrest (by omega) (by omega)
    simp only [callbackReturnLoop, collapseForest_append, h1, h2]
termination_by sizeOf ss

theorem collapse_callbackStmt (st : Node) (d d2 maxd : Nat)
    (hf : fwbStmt st = true)
    (hb1 : d + nodeSize st ≤ maxd) (hb2 : d2 + nodeSize st ≤ maxd) :
    collapseForest (callbackStmtJSX st d maxd true) = callbackStmtJSX st d2 maxd false := by
  cases st
  case returnStatement a =>
    cases a with
    | some arg =>
      simp only [fwbStmt, Bool.and_eq_true] at hf
      obtain ⟨hnf0, hfr⟩ := hf
      have hnf : isFragmentNode arg = false := by
        revert hnf0
        cases isFragmentNode arg <;> simp
      simp only [nodeSize] at hb1 hb2
      by_cases hr : isJSXElementOrFragment arg = true
      · have hrec := collapse_addJSXSymbol arg d d2 maxd hfr hnf (by omega) (by omega)
        simp [callbackStmtJSX, hr, hrec]
      · simp [callbackStmtJSX, hr, collapseForest]
    | none => simp [callbackStmtJSX, collapseForest]
  all_goals simp [callbackStmtJSX, collapseForest]
termination_by sizeOf st
end

/-- C5, counterexample: with `maxDepth = 2`, the component
`const C = () => { return <div><><span><b/></span></></div> }` emits the
same NUMBER of markup nodes whether fragments are shown or hidden (the
claim demands exactly one more when shown), and splicing the fragment
nodes out of the shown outline does not give the hidden outline: the
shown run spends a depth level on the fragment and truncates span, which
the hidden run keeps. -/
theorem c5_counterexample :
    outlineShapes (collapseForest
        (getSymbolsFromDocument fragmentUnderCutoffProgram defaultConfig)) ≠
      outlineShapes (getSymbolsFromDocument fragmentUnderCutoffProgram hiddenFragmentConfig) ∧
    childMarkupCount (getSymbolsFromDocument fragmentUnderCutoffProgram defaultConfig) =
      childMarkupCount (getSymbolsFromDocument fragmentUnderCutoffProgram
        hiddenFragmentConfig) :=
  ⟨by decide, by decide⟩

/-- C5, amended: on well-behaved markup - fragments occur only as literal
JSX children (never in embedded-expression emission positions, where the
builder emits them even when hidden) and no element tag collides with the
reserved fragment label - and with the depth cutoff out of reach on both
runs, hiding fragments is exactly showing them and then splicing every
fragment node out (its children attach to its parent in place), and the
shown run emits exactly one extra node per fragment shown:
count(shown) = count(hidden) + fragments(shown).  Shown fragments do
consume a depth level; hidden ones do not, which is why the budgets of
the two runs are tracked independently. -/
theorem c5_fragment_toggle_collapse (n : Node) (d d2 maxd : Nat)
    (hfwb : fwbNode n = true) (hnf : isFragmentNode n = false)
    (hb1 : d + nodeSize n ≤ maxd) (hb2 : d2 + nodeSize n ≤ maxd) :
    collapseForest (addJSXSymbol n d maxd true) = addJSXSymbol n d2 maxd false ∧
    forestCount (addJSXSymbol n d maxd true) =
      forestCount (addJSXSymbol n d2 maxd false) +
        forestFragCount (addJSXSymbol n d maxd true) := by
  have hcol := collapse_addJSXSymbol n d d2 maxd hfwb hnf hb1 hb2
  refine ⟨hcol, ?_⟩
  have hcount := forestCount_collapse (addJSXSymbol n d maxd true)
  rw [hcol] at hcount
  omega

/-- Witness for C5 at `<div><><em/></></div>` with depth budget 5 on
both runs. -/
theorem c5_witness :
    collapseForest (addJSXSymbol fragmentToggleSample 0 5 true) =
      addJSXSymbol fragmentToggleSample 0 5 false ∧
    forestCount (addJSXSymbol fragmentToggleSample 0 5 true) =
      forestCount (addJSXSymbol fragmentToggleSample 0 5 false) +
        forestFragCount (addJSXSymbol fragmentToggleSample 0 5 true) :=
  c5_fragment_toggle_collapse fragmentToggleSample 0 0 5 (by decide) (by decide)
    (by decide) (by decide)
